import Mathlib

/-! # TechNova War: game state, combat resolution and mission check

A shallow embedding of `src/war.c`.

Modelling conventions

* C `int` values are `Int` and arithmetic is exact.  Signed overflow, which is
  undefined in C, would need a troop count above 357 million or more than `2^30`
  territories; it is not modelled.
* A C array together with its element count (`territorios`/`numTerritorios`,
  `jogadores`/`numJogadores`, `vizinhos`/`numVizinhos`) is a `List`; the count is
  the length of the list.  `missoes` is a separate list because the program
  indexes it independently.
* A pointer into `territorios` is the index of the territory it points to.
* An array access with an index outside the array is undefined behaviour in C;
  here every function that indexes with an unchecked `int` returns `Option`, and
  `none` stands for such an access (or for a division by zero, or for `exit(1)`).
* `rand()` is a stream `rand : Nat → Nat` read through a cursor `pos`; a call to
  `rolarDado` reads `rand pos` and advances the cursor by one.
* `printf` output of `atacar` is the list of `Msg` it emits.  Display names
  (`nome`) and the console output of the set-up functions are not modelled.
-/

namespace War

/-! ## Data model (war.c, lines 32-74) -/

/-- Territory: a node of the graph.  `vizinhos` holds, for each neighbour pointer,
the index of the territory pointed to; `numVizinhos` is its length. -/
structure Territory where
  id : Int
  dono : Int
  tropas : Int
  vizinhos : List Int
deriving DecidableEq, Repr

/-- Number of neighbour pointers of a territory. -/
def Territory.numVizinhos (t : Territory) : Int := t.vizinhos.length

/-- Player. -/
structure Player where
  id : Int
  numTerritorios : Int
deriving DecidableEq, Repr

/-- Kinds of mission (a single one). -/
inductive MissionType where
  | MISSION_DOMINAR_N_TERRITORIOS
deriving DecidableEq, Repr

/-- Target of a `MissionCheckFunc` function pointer: the only function of that type
in the program. -/
inductive MissionCheckFunc where
  | missionDominarNTerritorios
deriving DecidableEq, Repr

/-- Mission bound to a player; `check = none` is the NULL function pointer. -/
structure Mission where
  tipo : MissionType
  alvo : Int
  check : Option MissionCheckFunc
deriving DecidableEq, Repr

/-- The game: territories, players and one mission per player. -/
structure Game where
  territorios : List Territory
  jogadores : List Player
  missoes : List Mission
deriving DecidableEq, Repr

/-- Element count of `territorios`. -/
def Game.numTerritorios (game : Game) : Int := game.territorios.length

/-- Element count of `jogadores`. -/
def Game.numJogadores (game : Game) : Int := game.jogadores.length

/-! ## Array access with `int` indices -/

/-- Read `l[i]`; `none` when `i` is outside the array. -/
def idx? {α : Type} (l : List α) (i : Int) : Option α :=
  if 0 ≤ i then l[i.toNat]? else none

/-- Update `l[i]` in place with `f`; `none` when `i` is outside the array. -/
def modIdx? {α : Type} (l : List α) (i : Int) (f : α → α) : Option (List α) :=
  match idx? l i with
  | some x => some (l.set i.toNat (f x))
  | none => none

/-! ## Set-up (war.c, lines 107-227) -/

/-- A zero-filled `Territory`, as `calloc` leaves it. -/
def Territory.zero : Territory := ⟨0, 0, 0, []⟩

/-- A zero-filled `Player`. -/
def Player.zero : Player := ⟨0, 0⟩

/-- A zero-filled `Mission` (`check` is NULL). -/
def Mission.zero : Mission := ⟨MissionType.MISSION_DOMINAR_N_TERRITORIOS, 0, none⟩

/-- Allocation of the game.  A negative count converts to a `size_t` for which
`calloc` fails, and the program exits: `none`.  A zero count is taken to give an
empty array. -/
def criarJogo (numTerr numPlayers : Int) : Option Game :=
  if numTerr < 0 ∨ numPlayers < 0 then none
  else some
    { territorios := List.replicate numTerr.toNat Territory.zero
      jogadores := List.replicate numPlayers.toNat Player.zero
      missoes := List.replicate numPlayers.toNat Mission.zero }

/-- Body of the loop of `inicializarTerritoriosPadrao` for index `i`. -/
def inicializarTerritorioPasso (game : Game) (i : Nat) : Option Game :=
  let n := game.numTerritorios
  if n = 0 then none
  else
    let vizEsq := Int.tmod ((i : Int) - 1 + n) n
    let vizDir := Int.tmod ((i : Int) + 1) n
    match modIdx? game.territorios i
        (fun _ => { id := i, dono := -1, tropas := 0, vizinhos := [vizEsq, vizDir] }) with
    | some ts => some { game with territorios := ts }
    | none => none

/-- State after the first `k` iterations of the loop of
`inicializarTerritoriosPadrao`. -/
def inicializarTerritoriosAte (game : Game) : Nat → Option Game
  | 0 => some game
  | k + 1 =>
    match inicializarTerritoriosAte game k with
    | some g => inicializarTerritorioPasso g k
    | none => none

/-- Ring map: territory `i` gets neighbours `(i - 1 + n) % n` and `(i + 1) % n`. -/
def inicializarTerritoriosPadrao (game : Game) : Option Game :=
  inicializarTerritoriosAte game game.numTerritorios.toNat

/-- Body of the loop of `inicializarJogadores` for index `i` (the name read from
the console is not modelled). -/
def inicializarJogadorPasso (game : Game) (i : Nat) : Option Game :=
  match modIdx? game.jogadores i (fun _ => { id := i, numTerritorios := 0 }) with
  | some js => some { game with jogadores := js }
  | none => none

/-- State after the first `k` iterations of the loop of `inicializarJogadores`. -/
def inicializarJogadoresAte (game : Game) : Nat → Option Game
  | 0 => some game
  | k + 1 =>
    match inicializarJogadoresAte game k with
    | some g => inicializarJogadorPasso g k
    | none => none

/-- Numbers the players and zeroes their counters. -/
def inicializarJogadores (game : Game) : Option Game :=
  inicializarJogadoresAte game game.numJogadores.toNat

/-- Body of the loop of `distribuirTerritorios` for index `i`; `none` when
`numJogadores` is zero (`i % 0`). -/
def distribuirPasso (game : Game) (i : Nat) : Option Game :=
  if game.numJogadores = 0 then none
  else
    let idDono := Int.tmod (i : Int) game.numJogadores
    match modIdx? game.territorios i (fun t => { t with dono := idDono, tropas := 3 }) with
    | some ts =>
      match modIdx? game.jogadores idDono
          (fun p => { p with numTerritorios := p.numTerritorios + 1 }) with
      | some js => some { game with territorios := ts, jogadores := js }
      | none => none
    | none => none

/-- State after the first `k` iterations of the loop of `distribuirTerritorios`. -/
def distribuirAte (game : Game) : Nat → Option Game
  | 0 => some game
  | k + 1 =>
    match distribuirAte game k with
    | some g => distribuirPasso g k
    | none => none

/-- Hands the territories out in turn: territory `i` to player `i % numJogadores`,
with 3 troops. -/
def distribuirTerritorios (game : Game) : Option Game :=
  distribuirAte game game.numTerritorios.toNat

/-- Body of the loop of `inicializarMissoes` for index `i`, with the target
computed before the loop. -/
def inicializarMissaoPasso (alvo : Int) (game : Game) (i : Nat) : Option Game :=
  match modIdx? game.missoes i
      (fun _ => { tipo := MissionType.MISSION_DOMINAR_N_TERRITORIOS, alvo := alvo,
                  check := some MissionCheckFunc.missionDominarNTerritorios }) with
  | some ms => some { game with missoes := ms }
  | none => none

/-- State after the first `k` iterations of the loop of `inicializarMissoes`. -/
def inicializarMissoesAte (alvo : Int) (game : Game) : Nat → Option Game
  | 0 => some game
  | k + 1 =>
    match inicializarMissoesAte alvo game k with
    | some g => inicializarMissaoPasso alvo g k
    | none => none

/-- Every player must own at least `numTerritorios / numJogadores + 1`
territories; `none` when `numJogadores` is zero (division by zero). -/
def inicializarMissoes (game : Game) : Option Game :=
  if game.numJogadores = 0 then none
  else
    let base := Int.tdiv game.numTerritorios game.numJogadores
    let alvo := base + 1
    inicializarMissoesAte alvo game game.numJogadores.toNat

/-- The calls of `main` up to and including `distribuirTerritorios` (lines
374-378), for given counts. -/
def jogoDistribuido (numTerr numPlayers : Int) : Option Game :=
  match criarJogo numTerr numPlayers with
  | none => none
  | some g0 =>
    match inicializarTerritoriosPadrao g0 with
    | none => none
    | some g1 =>
      match inicializarJogadores g1 with
      | none => none
      | some g2 => distribuirTerritorios g2

/-- The set-up sequence of `main` (lines 374-379) for given counts. -/
def setup (numTerr numPlayers : Int) : Option Game :=
  match jogoDistribuido numTerr numPlayers with
  | none => none
  | some g3 => inicializarMissoes g3

/-! ## Dice (war.c, lines 230-232 and 276-282) -/

/-- One six-sided die: `rand() % 6 + 1`.  Returns the value and the advanced
cursor. -/
def rolarDado (rand : Nat → Nat) (pos : Nat) : Int × Nat :=
  (((rand pos % 6 + 1 : Nat) : Int), pos + 1)

/-- The loop `for (i = 0; i < n; i++) soma += rolarDado();` started with
accumulator `soma` and cursor `pos`. -/
def somarDados (rand : Nat → Nat) : Nat → Int → Nat → Int × Nat
  | 0, soma, pos => (soma, pos)
  | n + 1, soma, pos => somarDados rand n (soma + (rolarDado rand pos).1) (rolarDado rand pos).2

/-! ## Attack (war.c, lines 235-309) -/

/-- Lines written by `atacar` to the console. -/
inductive Msg where
  /-- ID de territorio invalido. -/
  | idInvalido
  /-- Voce nao controla o territorio de origem! -/
  | naoControla
  /-- Tropas insuficientes para atacar! -/
  | tropasInsuficientes
  /-- Nao pode atacar o mesmo territorio. -/
  | mesmoTerritorio
  /-- Territorio alvo nao eh vizinho. -/
  | naoVizinho
  /-- The header: --- Ataque ---, then origin and target with their troops. -/
  | ataque (tropasOrigem tropasAlvo : Int)
  /-- Resultado dados: attack and defence sums. -/
  | resultadoDados (somaAtaque somaDefesa : Int)
  /-- Territorio conquistado! -/
  | conquistado
  /-- Ataque fracassou. Tropas perdidas. -/
  | fracassou
deriving DecidableEq, Repr

/-- What a call of `atacar` leaves behind: the returned `int`, the game, the
cursor of the random stream and the console output. -/
structure Resultado where
  ret : Int
  game : Game
  pos : Nat
  saida : List Msg
deriving DecidableEq, Repr

/-- The neighbour scan of `atacar` (lines 259-265): is some pointer of
`origem.vizinhos` equal to the target? -/
def ehVizinho (origem : Territory) (idAlvo : Int) : Bool :=
  origem.vizinhos.any (fun v => decide (v = idAlvo))

/-- Lines 271-308 of `atacar`: dice, comparison, and the two outcomes.  `origem`
and `alvo` are the territories at `idOrigem` and `idAlvo` on entry. -/
def resolverAtaque (rand : Nat → Nat) (game : Game) (pos : Nat)
    (idJogador idOrigem idAlvo tropas : Int) (origem alvo : Territory) : Option Resultado :=
  let a := somarDados rand tropas.toNat 0 pos
  let d := somarDados rand alvo.tropas.toNat 0 a.2
  let somaAtaque := a.1
  let somaDefesa := d.1
  let cabecalho := [Msg.ataque origem.tropas alvo.tropas, Msg.resultadoDados somaAtaque somaDefesa]
  if somaAtaque > somaDefesa then
    let antigoDono := alvo.dono
    let dec : Option (List Player) :=
      if antigoDono ≠ -1 ∧ antigoDono ≠ idJogador then
        modIdx? game.jogadores antigoDono
          (fun p => { p with numTerritorios := p.numTerritorios - 1 })
      else some game.jogadores
    match dec with
    | none => none
    | some js1 =>
      match modIdx? js1 idJogador (fun p => { p with numTerritorios := p.numTerritorios + 1 }) with
      | none => none
      | some js2 =>
        match modIdx? game.territorios idOrigem (fun t => { t with tropas := t.tropas - tropas }) with
        | none => none
        | some ts1 =>
          match modIdx? ts1 idAlvo (fun t => { t with dono := idJogador, tropas := tropas }) with
          | none => none
          | some ts2 =>
            some
              { ret := 1
                game := { game with territorios := ts2, jogadores := js2 }
                pos := d.2
                saida := cabecalho ++ [Msg.conquistado] }
  else
    match modIdx? game.territorios idOrigem
        (fun t => { t with tropas := if t.tropas - tropas < 0 then 0 else t.tropas - tropas }) with
    | none => none
    | some ts1 =>
      some
        { ret := 0
          game := { game with territorios := ts1 }
          pos := d.2
          saida := cabecalho ++ [Msg.fracassou] }

/-- Attack from territory `idOrigem` on territory `idAlvo` with `tropas` troops,
ordered by player `idJogador`. -/
def atacar (rand : Nat → Nat) (game : Game) (pos : Nat)
    (idJogador idOrigem idAlvo tropas : Int) : Option Resultado :=
  if idOrigem < 0 ∨ idOrigem ≥ game.numTerritorios ∨
      idAlvo < 0 ∨ idAlvo ≥ game.numTerritorios then
    some ⟨0, game, pos, [Msg.idInvalido]⟩
  else
    match idx? game.territorios idOrigem, idx? game.territorios idAlvo with
    | some origem, some alvo =>
      if origem.dono ≠ idJogador then
        some ⟨0, game, pos, [Msg.naoControla]⟩
      else if origem.tropas ≤ tropas ∨ tropas ≤ 0 then
        some ⟨0, game, pos, [Msg.tropasInsuficientes]⟩
      else if idOrigem = idAlvo then
        some ⟨0, game, pos, [Msg.mesmoTerritorio]⟩
      else if ehVizinho origem idAlvo = false then
        some ⟨0, game, pos, [Msg.naoVizinho]⟩
      else
        resolverAtaque rand game pos idJogador idOrigem idAlvo tropas origem alvo
    | _, _ => none

/-! ## Mission check (war.c, lines 312-332) -/

/-- The counting loop of `missionDominarNTerritorios`. -/
def contarTerritorios (ts : List Territory) (id : Int) : Int :=
  ts.foldl (fun count t => if t.dono = id then count + 1 else count) 0

/-- Mission: own at least `alvo` territories.  Returns 1 when fulfilled, 0 when
not; `none` when `p.id` is outside `missoes`. -/
def missionDominarNTerritorios (game : Game) (p : Player) : Option Int :=
  let count := contarTerritorios game.territorios p.id
  match idx? game.missoes p.id with
  | some m => some (if count ≥ m.alvo then 1 else 0)
  | none => none

/-- Call through a `MissionCheckFunc` pointer. -/
def MissionCheckFunc.call : MissionCheckFunc → Game → Player → Option Int
  | MissionCheckFunc.missionDominarNTerritorios => War.missionDominarNTerritorios

/-- Calls the check bound to the mission of the player. -/
def verificarVitoria (game : Game) (p : Player) : Option Int :=
  match idx? game.missoes p.id with
  | some m =>
    match m.check with
    | some f => f.call game p
    | none => some 0
  | none => none

/-! ## The contract of the attack, in the words of the specification -/

/-- Named rejection conditions of an attack. -/
inductive AttackError where
  | InvalidTerritoryError
  | NotOwnerError
  | InsufficientTroopsError
  | SelfAttackError
  | NotAdjacentError
deriving DecidableEq, Repr

/-- Console line by which `atacar` reports each condition. -/
def AttackError.mensagem : AttackError → Msg
  | AttackError.InvalidTerritoryError => Msg.idInvalido
  | AttackError.NotOwnerError => Msg.naoControla
  | AttackError.InsufficientTroopsError => Msg.tropasInsuficientes
  | AttackError.SelfAttackError => Msg.mesmoTerritorio
  | AttackError.NotAdjacentError => Msg.naoVizinho

/-- The five validations of an attack in the order 1..5 of the specification, each
with the condition it reports and whether it holds:
(1) both ids are valid territory ids, (2) the origin is owned by the attacker,
(3) `0 < tropas < origin.tropas`, (4) origin and target differ,
(5) the target appears in the neighbour list of the origin. -/
def validacoes (game : Game) (idJogador idOrigem idAlvo tropas : Int) :
    List (AttackError × Bool) :=
  let origem := idx? game.territorios idOrigem
  [ (AttackError.InvalidTerritoryError,
      decide (0 ≤ idOrigem ∧ idOrigem < game.numTerritorios ∧
              0 ≤ idAlvo ∧ idAlvo < game.numTerritorios)),
    (AttackError.NotOwnerError,
      match origem with
      | some og => decide (og.dono = idJogador)
      | none => false),
    (AttackError.InsufficientTroopsError,
      match origem with
      | some og => decide (0 < tropas ∧ tropas < og.tropas)
      | none => false),
    (AttackError.SelfAttackError, decide (idOrigem ≠ idAlvo)),
    (AttackError.NotAdjacentError,
      match origem with
      | some og => decide (idAlvo ∈ og.vizinhos)
      | none => false) ]

/-- The condition of the first validation that fails, if any. -/
def primeiraFalha (game : Game) (idJogador idOrigem idAlvo tropas : Int) :
    Option AttackError :=
  ((validacoes game idJogador idOrigem idAlvo tropas).find? (fun c => !c.2)).map Prod.fst

/-- All five validations hold. -/
def Valido (game : Game) (idJogador idOrigem idAlvo tropas : Int) : Prop :=
  ∀ c ∈ validacoes game idJogador idOrigem idAlvo tropas, c.2 = true

instance (game : Game) (idJogador idOrigem idAlvo tropas : Int) :
    Decidable (Valido game idJogador idOrigem idAlvo tropas) := by
  unfold Valido; infer_instance

/-- Sum of the `n` rolls read at positions `pos, pos + 1, ..., pos + n - 1` of the
random stream, each roll being `rand % 6 + 1`. -/
def somaRolagens (rand : Nat → Nat) (pos n : Nat) : Int :=
  ((List.range n).map (fun k => ((rand (pos + k) % 6 + 1 : Nat) : Int))).sum

/-- Attack score: the sum of the first `tropas` rolls. -/
def attackScore (rand : Nat → Nat) (pos : Nat) (tropas : Int) : Int :=
  somaRolagens rand pos tropas.toNat

/-- Defence score: the sum of the next `alvo.tropas` rolls. -/
def defenseScore (rand : Nat → Nat) (pos : Nat) (tropas : Int) (alvo : Territory) : Int :=
  somaRolagens rand (pos + tropas.toNat) alvo.tropas.toNat

/-- Number of territories whose `dono` is the given player id. -/
def ownershipCount (game : Game) (id : Int) : Nat :=
  game.territorios.countP (fun t => decide (t.dono = id))

/-- Every territory is owned by a player of the game, or is neutral (`dono = -1`)
and holds no troops. -/
def BemFormado (game : Game) : Prop :=
  ∀ t ∈ game.territorios,
    (t.dono = -1 ∧ t.tropas = 0) ∨ (0 ≤ t.dono ∧ t.dono < game.numJogadores)

instance (game : Game) : Decidable (BemFormado game) := by
  unfold BemFormado; infer_instance

/-- States of a game set up with `numTerr` territories and `numPlayers` players:
the state after `setup`, and every state left by a call of `atacar`, with any
arguments and any random stream, on such a state. -/
inductive Alcancavel (numTerr numPlayers : Int) : Game → Prop where
  | inicio (g : Game) : setup numTerr numPlayers = some g → Alcancavel numTerr numPlayers g
  | passo (g : Game) (rand : Nat → Nat) (pos : Nat) (idJogador idOrigem idAlvo tropas : Int)
      (r : Resultado) :
      Alcancavel numTerr numPlayers g →
      atacar rand g pos idJogador idOrigem idAlvo tropas = some r →
      Alcancavel numTerr numPlayers r.game

/-- The mission every player gets from `inicializarMissoes` when the target is
`alvo`. -/
def missaoDominar (alvo : Int) : Mission :=
  { tipo := MissionType.MISSION_DOMINAR_N_TERRITORIOS, alvo := alvo,
    check := some MissionCheckFunc.missionDominarNTerritorios }

/-- The state after `setup 6 2`, the configuration of `main`. -/
def jogo62 : Game :=
  { territorios :=
      [ ⟨0, 0, 3, [5, 1]⟩, ⟨1, 1, 3, [0, 2]⟩, ⟨2, 0, 3, [1, 3]⟩,
        ⟨3, 1, 3, [2, 4]⟩, ⟨4, 0, 3, [3, 5]⟩, ⟨5, 1, 3, [4, 0]⟩ ]
    jogadores := [⟨0, 3⟩, ⟨1, 3⟩]
    missoes := [missaoDominar 4, missaoDominar 4] }

/-- A random stream whose rolls are 6, 6, 1, 1, 1, 6, 6, 1, 1, then 1 for ever. -/
def randExemplo (k : Nat) : Nat := [5, 5, 0, 0, 0, 5, 5, 0, 0].getD k 0

/-- A random stream whose rolls are all 1. -/
def randUns (_ : Nat) : Nat := 0

/-- Territory `i` as `inicializarTerritoriosPadrao` leaves it in a map of `n`
territories. -/
def territorioAnel (n i : Nat) : Territory :=
  { id := i, dono := -1, tropas := 0,
    vizinhos := [Int.tmod ((i : Int) - 1 + n) n, Int.tmod ((i : Int) + 1) n] }

/-- Closed form of the state built by `setup` for `T` territories and `P` players
(see `setup_eq`). -/
def estadoInicial (T P : Nat) : Game :=
  { territorios :=
      (List.range T).map
        (fun i : Nat =>
          { territorioAnel T i with dono := ((i % P : Nat) : Int), tropas := 3 })
    jogadores :=
      (List.range P).map
        (fun p : Nat =>
          { id := (p : Int),
            numTerritorios := ((Nat.count (fun i => i % P = p) T : Nat) : Int) })
    missoes := List.replicate P (missaoDominar ((T : Int) / (P : Int) + 1)) }

/-- The state after `distribuirTerritorios` on a new game of 6 territories and 2
players (missions not yet assigned). -/
def jogo62Distribuido : Game :=
  { jogo62 with missoes := [Mission.zero, Mission.zero] }

/-- The state after player 0 conquers territory 1 from territory 0 with 2 troops in
`jogo62`. -/
def jogo62A : Game :=
  { territorios :=
      [ ⟨0, 0, 1, [5, 1]⟩, ⟨1, 0, 2, [0, 2]⟩, ⟨2, 0, 3, [1, 3]⟩,
        ⟨3, 1, 3, [2, 4]⟩, ⟨4, 0, 3, [3, 5]⟩, ⟨5, 1, 3, [4, 0]⟩ ]
    jogadores := [⟨0, 4⟩, ⟨1, 2⟩]
    missoes := [missaoDominar 4, missaoDominar 4] }

/-- The state after player 0 then attacks territory 1, which it already owns, from
territory 2 with 2 troops and wins the dice. -/
def jogo62B : Game :=
  { territorios :=
      [ ⟨0, 0, 1, [5, 1]⟩, ⟨1, 0, 2, [0, 2]⟩, ⟨2, 0, 1, [1, 3]⟩,
        ⟨3, 1, 3, [2, 4]⟩, ⟨4, 0, 3, [3, 5]⟩, ⟨5, 1, 3, [4, 0]⟩ ]
    jogadores := [⟨0, 5⟩, ⟨1, 2⟩]
    missoes := [missaoDominar 4, missaoDominar 4] }

/-- The state after `setup 3 2`. -/
def jogo32 : Game :=
  { territorios := [⟨0, 0, 3, [2, 1]⟩, ⟨1, 1, 3, [0, 2]⟩, ⟨2, 0, 3, [1, 0]⟩]
    jogadores := [⟨0, 2⟩, ⟨1, 1⟩]
    missoes := [missaoDominar 2, missaoDominar 2] }

/-- The state after player 0 attacks territory 2, which it already owns, from
territory 0 with 2 troops in `jogo32` and wins the dice. -/
def jogo32A : Game :=
  { territorios := [⟨0, 0, 1, [2, 1]⟩, ⟨1, 1, 3, [0, 2]⟩, ⟨2, 0, 2, [1, 0]⟩]
    jogadores := [⟨0, 3⟩, ⟨1, 1⟩]
    missoes := [missaoDominar 2, missaoDominar 2] }

/-- Successor of a territory in the map: the territory its second neighbour
pointer (`vizinhos[1]`, the `vizDir` of `inicializarTerritoriosPadrao`) points to. -/
def sucessor (game : Game) (i : Int) : Option Int :=
  match idx? game.territorios i with
  | some t => t.vizinhos[1]?
  | none => none

/-- Following the successor `k` times from territory `i`. -/
def seguirSucessor (game : Game) : Nat → Int → Option Int
  | 0, i => some i
  | k + 1, i =>
    match seguirSucessor game k i with
    | some j => sucessor game j
    | none => none

/-- A new game of 6 territories and 2 players, as `criarJogo 6 2` returns it. -/
def jogo62Novo : Game :=
  { territorios := List.replicate 6 Territory.zero
    jogadores := List.replicate 2 Player.zero
    missoes := List.replicate 2 Mission.zero }

/-- The map `inicializarTerritoriosPadrao` builds in `jogo62Novo`. -/
def jogo62Anel : Game :=
  { jogo62Novo with
    territorios :=
      [ ⟨0, -1, 0, [5, 1]⟩, ⟨1, -1, 0, [0, 2]⟩, ⟨2, -1, 0, [1, 3]⟩,
        ⟨3, -1, 0, [2, 4]⟩, ⟨4, -1, 0, [3, 5]⟩, ⟨5, -1, 0, [4, 0]⟩ ] }

/-- A game of 3 territories in which player 0 holds territory 0 with 3 troops and
territories 1 and 2 are neutral and empty. -/
def jogoNeutro : Game :=
  { territorios := [⟨0, 0, 3, [2, 1]⟩, ⟨1, -1, 0, [0, 2]⟩, ⟨2, -1, 0, [1, 0]⟩]
    jogadores := [⟨0, 1⟩]
    missoes := [missaoDominar 4] }

/-- The state after `setup 2 1`. -/
def jogo21 : Game :=
  { territorios := [⟨0, 0, 3, [1, 1]⟩, ⟨1, 0, 3, [0, 0]⟩]
    jogadores := [⟨0, 2⟩]
    missoes := [missaoDominar 3] }

/-- The state before `distribuirTerritorios` in a game of 3 territories and no
player. -/
def jogo30 : Game :=
  { territorios := [⟨0, -1, 0, [2, 1]⟩, ⟨1, -1, 0, [0, 2]⟩, ⟨2, -1, 0, [1, 0]⟩]
    jogadores := []
    missoes := [] }

/-- Troop invariant of the data model: no territory has a negative troop count, and
a neutral territory (`dono = -1`) has none. -/
def TropasOk (game : Game) : Prop :=
  ∀ t ∈ game.territorios, 0 ≤ t.tropas ∧ (t.dono = -1 → t.tropas = 0)

instance (game : Game) : Decidable (TropasOk game) := by
  unfold TropasOk; infer_instance

/-- Invariant of a game under way with `P` players: there are `P` player records,
and every territory is owned by one of them and holds between 1 and 3 troops. -/
def InvJogo (P : Int) (game : Game) : Prop :=
  game.numJogadores = P ∧
  ∀ t ∈ game.territorios, 0 ≤ t.dono ∧ t.dono < P ∧ 1 ≤ t.tropas ∧ t.tropas ≤ 3

/-- Sum of the troops over all territories. -/
def somaTropas (game : Game) : Int :=
  (game.territorios.map Territory.tropas).sum

/-- States of a game set up with `numTerr` territories and `numPlayers` players,
together with the number of calls of `atacar` so far that passed all validations. -/
inductive AlcancavelApos (numTerr numPlayers : Int) : Nat → Game → Prop where
  | inicio (g : Game) :
      setup numTerr numPlayers = some g → AlcancavelApos numTerr numPlayers 0 g
  | rejeitado (n : Nat) (g : Game) (rand : Nat → Nat) (pos : Nat)
      (idJogador idOrigem idAlvo tropas : Int) (r : Resultado) :
      AlcancavelApos numTerr numPlayers n g →
      ¬ Valido g idJogador idOrigem idAlvo tropas →
      atacar rand g pos idJogador idOrigem idAlvo tropas = some r →
      AlcancavelApos numTerr numPlayers n r.game
  | validado (n : Nat) (g : Game) (rand : Nat → Nat) (pos : Nat)
      (idJogador idOrigem idAlvo tropas : Int) (r : Resultado) :
      AlcancavelApos numTerr numPlayers n g →
      Valido g idJogador idOrigem idAlvo tropas →
      atacar rand g pos idJogador idOrigem idAlvo tropas = some r →
      AlcancavelApos numTerr numPlayers (n + 1) r.game

/-! # Theorems -/

/-! ## Basic facts about array access -/

theorem idx?_eq_some_iff {α : Type} (l : List α) (i : Int) (x : α) :
    idx? l i = some x ↔ 0 ≤ i ∧ l[i.toNat]? = some x := by
  unfold idx?
  by_cases h : 0 ≤ i <;> simp [h]

theorem idx?_isSome_of_lt {α : Type} (l : List α) (i : Int) (h0 : 0 ≤ i)
    (h1 : i < l.length) : ∃ x, idx? l i = some x := by
  have hlt : i.toNat < l.length := by omega
  exact ⟨l[i.toNat], by simp [idx?, h0, List.getElem?_eq_getElem hlt]⟩

theorem idx?_lt {α : Type} {l : List α} {i : Int} {x : α} (h : idx? l i = some x) :
    0 ≤ i ∧ i < l.length := by
  rw [idx?_eq_some_iff] at h
  obtain ⟨h0, h1⟩ := h
  have := (List.getElem?_eq_some_iff.1 h1).1
  omega

theorem idx?_natCast {α : Type} (l : List α) (i : Nat) : idx? l (i : Int) = l[i]? := by
  simp [idx?]

theorem ehVizinho_iff (origem : Territory) (idAlvo : Int) :
    ehVizinho origem idAlvo = true ↔ idAlvo ∈ origem.vizinhos := by
  simp [ehVizinho, List.any_eq_true]

/-- The dice phase never produces a one-line rejection. -/
theorem resolverAtaque_saida (rand : Nat → Nat) (game : Game) (pos : Nat)
    (idJogador idOrigem idAlvo tropas : Int) (origem alvo : Territory) (r : Resultado)
    (h : resolverAtaque rand game pos idJogador idOrigem idAlvo tropas origem alvo = some r) :
    r.saida.length = 3 := by
  unfold resolverAtaque at h
  simp only at h
  split at h
  · split at h
    · exact absurd h (by simp)
    · split at h
      · exact absurd h (by simp)
      · split at h
        · exact absurd h (by simp)
        · split at h
          · exact absurd h (by simp)
          · simp only [Option.some.injEq] at h
            subst h
            simp
  · split at h
    · exact absurd h (by simp)
    · simp only [Option.some.injEq] at h
      subst h
      simp

/-- Unfolding of `atacar` on inputs for which both ids are valid. -/
theorem atacar_eq_of_idx (rand : Nat → Nat) (game : Game) (pos : Nat)
    (idJogador idOrigem idAlvo tropas : Int) (origem alvo : Territory)
    (ho : idx? game.territorios idOrigem = some origem)
    (ha : idx? game.territorios idAlvo = some alvo) :
    atacar rand game pos idJogador idOrigem idAlvo tropas =
      if origem.dono ≠ idJogador then
        some ⟨0, game, pos, [Msg.naoControla]⟩
      else if origem.tropas ≤ tropas ∨ tropas ≤ 0 then
        some ⟨0, game, pos, [Msg.tropasInsuficientes]⟩
      else if idOrigem = idAlvo then
        some ⟨0, game, pos, [Msg.mesmoTerritorio]⟩
      else if ehVizinho origem idAlvo = false then
        some ⟨0, game, pos, [Msg.naoVizinho]⟩
      else
        resolverAtaque rand game pos idJogador idOrigem idAlvo tropas origem alvo := by
  have h1 := idx?_lt ho
  have h2 := idx?_lt ha
  have hr : ¬ (idOrigem < 0 ∨ idOrigem ≥ game.numTerritorios ∨
      idAlvo < 0 ∨ idAlvo ≥ game.numTerritorios) := by
    unfold Game.numTerritorios; omega
  unfold atacar
  rw [if_neg hr, ho, ha]

/-- Unfolding of `atacar` when an id is outside the array. -/
theorem atacar_eq_of_invalid (rand : Nat → Nat) (game : Game) (pos : Nat)
    (idJogador idOrigem idAlvo tropas : Int)
    (h : ¬ (0 ≤ idOrigem ∧ idOrigem < game.numTerritorios ∧
            0 ≤ idAlvo ∧ idAlvo < game.numTerritorios)) :
    atacar rand game pos idJogador idOrigem idAlvo tropas =
      some ⟨0, game, pos, [Msg.idInvalido]⟩ := by
  have hr : idOrigem < 0 ∨ idOrigem ≥ game.numTerritorios ∨
      idAlvo < 0 ∨ idAlvo ≥ game.numTerritorios := by omega
  unfold atacar
  rw [if_pos hr]

/-- The first failing validation decides what `atacar` does: it reports that
condition and changes nothing, or, when none fails, runs the dice phase. -/
theorem atacar_primeiraFalha (rand : Nat → Nat) (game : Game) (pos : Nat)
    (idJogador idOrigem idAlvo tropas : Int) :
    (∀ e, primeiraFalha game idJogador idOrigem idAlvo tropas = some e →
      atacar rand game pos idJogador idOrigem idAlvo tropas =
        some ⟨0, game, pos, [e.mensagem]⟩) ∧
    (primeiraFalha game idJogador idOrigem idAlvo tropas = none →
      ∃ origem alvo, idx? game.territorios idOrigem = some origem ∧
        idx? game.territorios idAlvo = some alvo ∧
        atacar rand game pos idJogador idOrigem idAlvo tropas =
          resolverAtaque rand game pos idJogador idOrigem idAlvo tropas origem alvo) := by
  by_cases hv : 0 ≤ idOrigem ∧ idOrigem < game.numTerritorios ∧
      0 ≤ idAlvo ∧ idAlvo < game.numTerritorios
  · obtain ⟨origem, ho⟩ := idx?_isSome_of_lt game.territorios idOrigem hv.1 hv.2.1
    obtain ⟨alvo, ha⟩ := idx?_isSome_of_lt game.territorios idAlvo hv.2.2.1 hv.2.2.2
    rw [atacar_eq_of_idx rand game pos idJogador idOrigem idAlvo tropas origem alvo ho ha]
    have hviz := ehVizinho_iff origem idAlvo
    by_cases h2 : origem.dono = idJogador
    · by_cases h3 : 0 < tropas ∧ tropas < origem.tropas
      · have h3n : ¬ (origem.tropas ≤ tropas ∨ tropas ≤ 0) := by omega
        by_cases h4 : idOrigem = idAlvo
        · subst h4
          simp [primeiraFalha, validacoes, ho, hv, h2, h3, h3n, AttackError.mensagem]
        · by_cases h5 : idAlvo ∈ origem.vizinhos
          · have h5b : ehVizinho origem idAlvo = true := hviz.2 h5
            simp [primeiraFalha, validacoes, ho, ha, hv, h2, h3, h3n, h4, h5, h5b]
          · have h5b : ehVizinho origem idAlvo = false := by
              cases hb : ehVizinho origem idAlvo
              · rfl
              · exact absurd (hviz.1 hb) h5
            simp [primeiraFalha, validacoes, ho, hv, h2, h3, h3n, h4, h5, h5b,
              AttackError.mensagem]
      · have h3n : origem.tropas ≤ tropas ∨ tropas ≤ 0 := by omega
        simp [primeiraFalha, validacoes, ho, hv, h2, h3, h3n, AttackError.mensagem]
    · simp [primeiraFalha, validacoes, ho, hv, h2, AttackError.mensagem]
  · rw [atacar_eq_of_invalid rand game pos idJogador idOrigem idAlvo tropas hv]
    simp [primeiraFalha, validacoes, hv, AttackError.mensagem]

theorem primeiraFalha_eq_none_iff (game : Game) (idJogador idOrigem idAlvo tropas : Int) :
    primeiraFalha game idJogador idOrigem idAlvo tropas = none ↔
      Valido game idJogador idOrigem idAlvo tropas := by
  unfold primeiraFalha Valido
  rw [Option.map_eq_none', List.find?_eq_none]
  constructor
  · intro h c hc
    have := h c hc
    simpa using this
  · intro h c hc
    simp [h c hc]

/-- What the five validations say, spelled out. -/
theorem valido_iff (game : Game) (idJogador idOrigem idAlvo tropas : Int) :
    Valido game idJogador idOrigem idAlvo tropas ↔
      0 ≤ idOrigem ∧ idOrigem < game.numTerritorios ∧
      0 ≤ idAlvo ∧ idAlvo < game.numTerritorios ∧
      ∃ origem, idx? game.territorios idOrigem = some origem ∧
        origem.dono = idJogador ∧ 0 < tropas ∧ tropas < origem.tropas ∧
        idOrigem ≠ idAlvo ∧ idAlvo ∈ origem.vizinhos := by
  unfold Valido validacoes
  cases ho : idx? game.territorios idOrigem with
  | none => simp
  | some origem =>
    simp only [List.mem_cons, List.mem_singleton, List.not_mem_nil, or_false, forall_eq_or_imp,
      forall_eq, decide_eq_true_eq]
    constructor
    · rintro ⟨h1, h2, h3, h4, h5⟩
      exact ⟨h1.1, h1.2.1, h1.2.2.1, h1.2.2.2, origem, rfl, h2, h3.1, h3.2, h4, h5⟩
    · rintro ⟨a, b, c, d, og, hog, h2, h3, h3b, h4, h5⟩
      cases hog
      exact ⟨⟨a, b, c, d⟩, h2, ⟨h3, h3b⟩, h4, h5⟩

/-! ## Array updates -/

theorem modIdx?_of_idx {α : Type} {l : List α} {i : Int} {x : α} (f : α → α)
    (h : idx? l i = some x) : modIdx? l i f = some (l.set i.toNat (f x)) := by
  simp [modIdx?, h]

theorem modIdx?_eq_some {α : Type} {l l2 : List α} {i : Int} {f : α → α}
    (h : modIdx? l i f = some l2) :
    ∃ x, idx? l i = some x ∧ l2 = l.set i.toNat (f x) := by
  unfold modIdx? at h
  cases hx : idx? l i with
  | none => simp [hx] at h
  | some x =>
    simp only [hx, Option.some.injEq] at h
    exact ⟨x, rfl, h.symm⟩

theorem idx?_set_ne {α : Type} (l : List α) (i k : Int) (y : α) (h0 : 0 ≤ i) (hne : k ≠ i) :
    idx? (l.set i.toNat y) k = idx? l k := by
  unfold idx?
  by_cases hk : 0 ≤ k
  · have : i.toNat ≠ k.toNat := by omega
    simp [hk, List.getElem?_set_ne this]
  · simp [hk]

theorem idx?_set_self {α : Type} (l : List α) (i : Int) (x y : α) (h : idx? l i = some x) :
    idx? (l.set i.toNat y) i = some y := by
  have hlt := idx?_lt h
  have : i.toNat < l.length := by omega
  simp [idx?, hlt.1, List.getElem?_set_self this]

/-! ## Dice -/

theorem somaRolagens_succ (rand : Nat → Nat) (pos n : Nat) :
    somaRolagens rand pos (n + 1) =
      ((rand pos % 6 + 1 : Nat) : Int) + somaRolagens rand (pos + 1) n := by
  unfold somaRolagens
  rw [List.range_succ_eq_map, List.map_cons, List.sum_cons, List.map_map]
  have : ((fun k => ((rand (pos + k) % 6 + 1 : Nat) : Int)) ∘ Nat.succ) =
      (fun k => ((rand (pos + 1 + k) % 6 + 1 : Nat) : Int)) := by
    funext k
    simp only [Function.comp, Nat.succ_eq_add_one]
    rw [show pos + (k + 1) = pos + 1 + k by omega]
  rw [this]
  rfl

/-- The dice loop adds to its accumulator the sum of the next `n` rolls and
advances the cursor by `n`. -/
theorem somarDados_eq (rand : Nat → Nat) (n : Nat) (soma : Int) (pos : Nat) :
    somarDados rand n soma pos = (soma + somaRolagens rand pos n, pos + n) := by
  induction n generalizing soma pos with
  | zero => simp [somarDados, somaRolagens]
  | succ n ih =>
    rw [somarDados, ih, somaRolagens_succ]
    simp only [rolarDado]
    rw [Prod.mk.injEq]
    constructor
    · ring
    · omega

/-- Every roll is between 1 and 6, so `n` rolls sum to at least `n` and at most
`6 * n`. -/
theorem somaRolagens_bounds (rand : Nat → Nat) (pos n : Nat) :
    (n : Int) ≤ somaRolagens rand pos n ∧ somaRolagens rand pos n ≤ 6 * (n : Int) := by
  induction n generalizing pos with
  | zero => simp [somaRolagens]
  | succ n ih =>
    rw [somaRolagens_succ]
    have h := ih (pos + 1)
    have h6 : rand pos % 6 < 6 := Nat.mod_lt _ (by decide)
    push_cast
    omega

/-! ## The dice phase of an attack -/

/-- The dice phase, with the scores and the territory updates made explicit. -/
theorem resolverAtaque_eq (rand : Nat → Nat) (game : Game) (pos : Nat)
    (idJogador idOrigem idAlvo tropas : Int) (origem alvo : Territory)
    (ho : idx? game.territorios idOrigem = some origem)
    (ha : idx? game.territorios idAlvo = some alvo)
    (hne : idOrigem ≠ idAlvo) (ht : tropas < origem.tropas) :
    resolverAtaque rand game pos idJogador idOrigem idAlvo tropas origem alvo =
      if attackScore rand pos tropas > defenseScore rand pos tropas alvo then
        match (if alvo.dono ≠ -1 ∧ alvo.dono ≠ idJogador then
            modIdx? game.jogadores alvo.dono
              (fun p => { p with numTerritorios := p.numTerritorios - 1 })
          else some game.jogadores) with
        | none => none
        | some js1 =>
          match modIdx? js1 idJogador
              (fun p => { p with numTerritorios := p.numTerritorios + 1 }) with
          | none => none
          | some js2 =>
            some
              { ret := 1
                game :=
                  { territorios :=
                      (game.territorios.set idOrigem.toNat
                        { origem with tropas := origem.tropas - tropas }).set idAlvo.toNat
                        { alvo with dono := idJogador, tropas := tropas }
                    jogadores := js2
                    missoes := game.missoes }
                pos := pos + tropas.toNat + alvo.tropas.toNat
                saida :=
                  [Msg.ataque origem.tropas alvo.tropas,
                   Msg.resultadoDados (attackScore rand pos tropas)
                     (defenseScore rand pos tropas alvo),
                   Msg.conquistado] }
      else
        some
          { ret := 0
            game :=
              { game with
                territorios := game.territorios.set idOrigem.toNat
                  { origem with tropas := origem.tropas - tropas } }
            pos := pos + tropas.toNat + alvo.tropas.toNat
            saida :=
              [Msg.ataque origem.tropas alvo.tropas,
               Msg.resultadoDados (attackScore rand pos tropas)
                 (defenseScore rand pos tropas alvo),
               Msg.fracassou] } := by
  have hol := idx?_lt ho
  have ha1 : idx? (game.territorios.set idOrigem.toNat
      { origem with tropas := origem.tropas - tropas }) idAlvo = some alvo := by
    rw [idx?_set_ne _ _ _ _ hol.1 (Ne.symm hne), ha]
  have hfloor : ¬ (origem.tropas - tropas < 0) := by omega
  unfold resolverAtaque
  simp only [somarDados_eq, zero_add, modIdx?_of_idx _ ho, modIdx?_of_idx _ ha1, hfloor,
    if_false, attackScore, defenseScore]
  split
  · split <;> simp_all
  · rfl

/-- A validated attack runs the dice phase on the origin and the target. -/
theorem atacar_valido (rand : Nat → Nat) (game : Game) (pos : Nat)
    (idJogador idOrigem idAlvo tropas : Int) (origem alvo : Territory)
    (hv : Valido game idJogador idOrigem idAlvo tropas)
    (ho : idx? game.territorios idOrigem = some origem)
    (ha : idx? game.territorios idAlvo = some alvo) :
    atacar rand game pos idJogador idOrigem idAlvo tropas =
        resolverAtaque rand game pos idJogador idOrigem idAlvo tropas origem alvo ∧
      origem.dono = idJogador ∧ 0 < tropas ∧ tropas < origem.tropas ∧
      idOrigem ≠ idAlvo ∧ idAlvo ∈ origem.vizinhos := by
  obtain ⟨og, al, hog, hal, heq⟩ :=
    (atacar_primeiraFalha rand game pos idJogador idOrigem idAlvo tropas).2
      ((primeiraFalha_eq_none_iff _ _ _ _ _).2 hv)
  rw [ho] at hog
  rw [ha] at hal
  cases hog
  cases hal
  obtain ⟨_, _, _, _, og2, hog2, h2, h3, h3b, h4, h5⟩ := (valido_iff _ _ _ _ _).1 hv
  rw [ho] at hog2
  cases hog2
  exact ⟨heq, h2, h3, h3b, h4, h5⟩

theorem mem_of_idx? {α : Type} {l : List α} {i : Int} {x : α} (h : idx? l i = some x) :
    x ∈ l := by
  rw [idx?_eq_some_iff] at h
  exact List.getElem?_mem h.2

/-- In a well-formed game the player-count updates of a conquest stay inside
`jogadores`. -/
theorem contagem_ok (game : Game) (idJogador : Int) (alvo : Territory)
    (hj : 0 ≤ idJogador ∧ idJogador < game.numJogadores)
    (hd : alvo.dono = -1 ∨ (0 ≤ alvo.dono ∧ alvo.dono < game.numJogadores)) :
    ∃ js1 js2,
      (if alvo.dono ≠ -1 ∧ alvo.dono ≠ idJogador then
          modIdx? game.jogadores alvo.dono
            (fun p => { p with numTerritorios := p.numTerritorios - 1 })
        else some game.jogadores) = some js1 ∧
      modIdx? js1 idJogador (fun p => { p with numTerritorios := p.numTerritorios + 1 }) =
        some js2 := by
  have hstep : ∀ js1 : List Player, js1.length = game.jogadores.length →
      ∃ js2, modIdx? js1 idJogador
        (fun p => { p with numTerritorios := p.numTerritorios + 1 }) = some js2 := by
    intro js1 hlen
    obtain ⟨p, hp⟩ := idx?_isSome_of_lt js1 idJogador hj.1 (by
      rw [hlen]; exact hj.2)
    exact ⟨_, modIdx?_of_idx _ hp⟩
  by_cases hc : alvo.dono ≠ -1 ∧ alvo.dono ≠ idJogador
  · have hr : 0 ≤ alvo.dono ∧ alvo.dono < game.numJogadores := by
      rcases hd with h | h
      · exact absurd h hc.1
      · exact h
    obtain ⟨p, hp⟩ := idx?_isSome_of_lt game.jogadores alvo.dono hr.1 hr.2
    obtain ⟨js2, h2⟩ := hstep (game.jogadores.set alvo.dono.toNat
      { p with numTerritorios := p.numTerritorios - 1 }) (by simp)
    exact ⟨_, js2, by rw [if_pos hc, modIdx?_of_idx _ hp], h2⟩
  · obtain ⟨js2, h2⟩ := hstep game.jogadores rfl
    exact ⟨_, js2, by rw [if_neg hc], h2⟩

/-- In a well-formed game a validated attack has a valid attacker id and a target
whose owner is neutral or a valid player id. -/
theorem indices_ok (game : Game) (idJogador idOrigem idAlvo tropas : Int)
    (origem alvo : Territory) (hbf : BemFormado game)
    (ho : idx? game.territorios idOrigem = some origem)
    (ha : idx? game.territorios idAlvo = some alvo)
    (hd : origem.dono = idJogador) (ht : 0 < tropas ∧ tropas < origem.tropas) :
    (0 ≤ idJogador ∧ idJogador < game.numJogadores) ∧
    (alvo.dono = -1 ∨ (0 ≤ alvo.dono ∧ alvo.dono < game.numJogadores)) := by
  constructor
  · rcases hbf origem (mem_of_idx? ho) with h | h
    · omega
    · rw [← hd]; exact h
  · rcases hbf alvo (mem_of_idx? ha) with h | h
    · exact Or.inl h.1
    · exact Or.inr h

/-- In a well-formed game every call of `atacar` returns (no access outside an
array). -/
theorem atacar_isSome (rand : Nat → Nat) (game : Game) (pos : Nat)
    (idJogador idOrigem idAlvo tropas : Int) (hbf : BemFormado game) :
    ∃ r, atacar rand game pos idJogador idOrigem idAlvo tropas = some r := by
  cases hp : primeiraFalha game idJogador idOrigem idAlvo tropas with
  | some e =>
    exact ⟨_, (atacar_primeiraFalha rand game pos idJogador idOrigem idAlvo tropas).1 e hp⟩
  | none =>
    have hv := (primeiraFalha_eq_none_iff _ _ _ _ _).1 hp
    obtain ⟨_, _, _, _, origem, ho, _⟩ := (valido_iff _ _ _ _ _).1 hv
    obtain ⟨alvo, ha⟩ := idx?_isSome_of_lt game.territorios idAlvo (by assumption)
      (by assumption)
    obtain ⟨heq, h2, h3, h3b, h4, h5⟩ :=
      atacar_valido rand game pos idJogador idOrigem idAlvo tropas origem alvo hv ho ha
    obtain ⟨hj, hd⟩ := indices_ok game idJogador idOrigem idAlvo tropas origem alvo hbf ho ha
      h2 ⟨h3, h3b⟩
    obtain ⟨js1, js2, h1, hh2⟩ := contagem_ok game idJogador alvo hj hd
    rw [heq, resolverAtaque_eq rand game pos idJogador idOrigem idAlvo tropas origem alvo
      ho ha h4 h3b]
    split
    · rw [h1]
      simp only [hh2]
      exact ⟨_, rfl⟩
    · exact ⟨_, rfl⟩

/-- The state left by any call of `atacar` that returns: the state on entry, or
the state on entry with the origin reduced (failure), or with the origin reduced,
the target taken over and the two counters updated (conquest). -/
theorem atacar_forma (rand : Nat → Nat) (game : Game) (pos : Nat)
    (idJogador idOrigem idAlvo tropas : Int) (r : Resultado)
    (h : atacar rand game pos idJogador idOrigem idAlvo tropas = some r) :
    r.game = game ∨
    ∃ origem alvo, idx? game.territorios idOrigem = some origem ∧
      idx? game.territorios idAlvo = some alvo ∧
      Valido game idJogador idOrigem idAlvo tropas ∧
      ((r.ret = 0 ∧ r.game =
          { game with
            territorios := game.territorios.set idOrigem.toNat
              { origem with tropas := origem.tropas - tropas } }) ∨
        (r.ret = 1 ∧ ∃ js1 js2,
          (if alvo.dono ≠ -1 ∧ alvo.dono ≠ idJogador then
              modIdx? game.jogadores alvo.dono
                (fun p => { p with numTerritorios := p.numTerritorios - 1 })
            else some game.jogadores) = some js1 ∧
          modIdx? js1 idJogador (fun p => { p with numTerritorios := p.numTerritorios + 1 }) =
            some js2 ∧
          r.game =
            { territorios :=
                (game.territorios.set idOrigem.toNat
                  { origem with tropas := origem.tropas - tropas }).set idAlvo.toNat
                  { alvo with dono := idJogador, tropas := tropas }
              jogadores := js2
              missoes := game.missoes })) := by
  cases hp : primeiraFalha game idJogador idOrigem idAlvo tropas with
  | some e =>
    rw [(atacar_primeiraFalha rand game pos idJogador idOrigem idAlvo tropas).1 e hp] at h
    cases h
    exact Or.inl rfl
  | none =>
    have hv := (primeiraFalha_eq_none_iff _ _ _ _ _).1 hp
    obtain ⟨_, _, _, _, origem, ho, _⟩ := (valido_iff _ _ _ _ _).1 hv
    obtain ⟨alvo, ha⟩ := idx?_isSome_of_lt game.territorios idAlvo (by assumption)
      (by assumption)
    obtain ⟨heq, h2, h3, h3b, h4, h5⟩ :=
      atacar_valido rand game pos idJogador idOrigem idAlvo tropas origem alvo hv ho ha
    refine Or.inr ⟨origem, alvo, ho, ha, hv, ?_⟩
    rw [heq, resolverAtaque_eq rand game pos idJogador idOrigem idAlvo tropas origem alvo
      ho ha h4 h3b] at h
    split at h
    · right
      split at h
      · exact absurd h (by simp)
      · rename_i js1 hjs1
        split at h
        · exact absurd h (by simp)
        · rename_i js2 hjs2
          cases h
          exact ⟨rfl, js1, js2, hjs1, hjs2, rfl⟩
    · left
      cases h
      exact ⟨rfl, rfl⟩

theorem idx?_set_map {α β : Type} (l : List α) (i k : Int) (x y : α) (f : α → β)
    (h : idx? l i = some x) (hf : f y = f x) :
    (idx? (l.set i.toNat y) k).map f = (idx? l k).map f := by
  by_cases hk : k = i
  · subst hk
    rw [idx?_set_self l k x y h, h]
    simp [hf]
  · rw [idx?_set_ne l i k y (idx?_lt h).1 hk]

/-- The counter updates of a conquest: lengths and ids are kept, and only the
entries of the attacker and of the previous owner of the target can change. -/
theorem contagem_frame (jogadores js1 js2 : List Player) (idJogador antigoDono : Int)
    (h1 : (if antigoDono ≠ -1 ∧ antigoDono ≠ idJogador then
          modIdx? jogadores antigoDono
            (fun p => { p with numTerritorios := p.numTerritorios - 1 })
        else some jogadores) = some js1)
    (h2 : modIdx? js1 idJogador (fun p => { p with numTerritorios := p.numTerritorios + 1 }) =
        some js2) :
    js2.length = jogadores.length ∧
    (∀ k, k ≠ idJogador → k ≠ antigoDono → idx? js2 k = idx? jogadores k) ∧
    (∀ k, (idx? js2 k).map Player.id = (idx? jogadores k).map Player.id) := by
  obtain ⟨p2, hp2, rfl⟩ := modIdx?_eq_some h2
  have hj0 := (idx?_lt hp2).1
  have hA : js1.length = jogadores.length ∧
      (∀ k, k ≠ antigoDono → idx? js1 k = idx? jogadores k) ∧
      (∀ k, (idx? js1 k).map Player.id = (idx? jogadores k).map Player.id) := by
    split at h1
    · obtain ⟨p1, hp1, rfl⟩ := modIdx?_eq_some h1
      refine ⟨by simp, ?_, ?_⟩
      · intro k hk
        exact idx?_set_ne _ _ _ _ (idx?_lt hp1).1 hk
      · intro k
        exact idx?_set_map _ _ _ p1 _ _ hp1 rfl
    · cases h1
      exact ⟨rfl, fun _ _ => rfl, fun _ => rfl⟩
  refine ⟨by simp [hA.1], ?_, ?_⟩
  · intro k hk hk2
    rw [idx?_set_ne _ _ _ _ hj0 hk]
    exact hA.2.1 k hk2
  · intro k
    have h3 : (idx? (js1.set idJogador.toNat
        { p2 with numTerritorios := p2.numTerritorios + 1 }) k).map Player.id =
        (idx? js1 k).map Player.id := idx?_set_map _ _ _ p2 _ _ hp2 rfl
    rw [h3]
    exact hA.2.2 k

/-! ## The set-up loops -/

theorem modIdx?_natCast {α : Type} (l : List α) (k : Nat) (f : α → α) (x : α)
    (h : l[k]? = some x) : modIdx? l (k : Int) f = some (l.set k (f x)) := by
  have h2 : idx? l (k : Int) = some x := by rw [idx?_natCast]; exact h
  rw [modIdx?_of_idx f h2]
  simp

theorem inicializarTerritoriosAte_spec (g : Game) (k : Nat)
    (hk : k ≤ g.territorios.length) :
    ∃ ts, inicializarTerritoriosAte g k = some { g with territorios := ts } ∧
      ts.length = g.territorios.length ∧
      ∀ i, ts[i]? =
        if i < k then some (territorioAnel g.territorios.length i) else g.territorios[i]? := by
  induction k with
  | zero => exact ⟨g.territorios, rfl, rfl, fun i => by simp⟩
  | succ k ih =>
    obtain ⟨ts, h1, hlen, hpt⟩ := ih (by omega)
    have hklt : k < ts.length := by omega
    have hx : ts[k]? = some ts[k] := List.getElem?_eq_getElem hklt
    refine ⟨ts.set k (territorioAnel g.territorios.length k), ?_, by simp [hlen], ?_⟩
    · rw [inicializarTerritoriosAte, h1]
      have hn : ¬ ((g.territorios.length : Int) = 0) := by omega
      simp only [inicializarTerritorioPasso, Game.numTerritorios,
        modIdx?_natCast ts k _ _ hx, hlen, territorioAnel, hn, if_false]
    · intro i
      rw [List.getElem?_set]
      by_cases hik : k = i
      · subst hik
        simp [hklt]
      · have := hpt i
        by_cases hlt : i < k
        · have h2 : i < k + 1 := by omega
          simp [hik, hlt, h2, this]
        · have h2 : ¬ i < k + 1 := by omega
          simp [hik, hlt, h2, this]

theorem inicializarJogadoresAte_spec (g : Game) (k : Nat)
    (hk : k ≤ g.jogadores.length) :
    ∃ js, inicializarJogadoresAte g k = some { g with jogadores := js } ∧
      js.length = g.jogadores.length ∧
      ∀ i, js[i]? = if i < k then some ⟨i, 0⟩ else g.jogadores[i]? := by
  induction k with
  | zero => exact ⟨g.jogadores, rfl, rfl, fun i => by simp⟩
  | succ k ih =>
    obtain ⟨js, h1, hlen, hpt⟩ := ih (by omega)
    have hklt : k < js.length := by omega
    have hx : js[k]? = some js[k] := List.getElem?_eq_getElem hklt
    refine ⟨js.set k ⟨k, 0⟩, ?_, by simp [hlen], ?_⟩
    · rw [inicializarJogadoresAte, h1]
      simp only [inicializarJogadorPasso, modIdx?_natCast js k _ _ hx]
    · intro i
      rw [List.getElem?_set]
      by_cases hik : k = i
      · subst hik
        simp [hklt]
      · have := hpt i
        by_cases hlt : i < k
        · have h2 : i < k + 1 := by omega
          simp [hik, hlt, h2, this]
        · have h2 : ¬ i < k + 1 := by omega
          simp [hik, hlt, h2, this]

theorem inicializarMissoesAte_spec (alvo : Int) (g : Game) (k : Nat)
    (hk : k ≤ g.missoes.length) :
    ∃ ms, inicializarMissoesAte alvo g k = some { g with missoes := ms } ∧
      ms.length = g.missoes.length ∧
      ∀ i, ms[i]? = if i < k then some (missaoDominar alvo) else g.missoes[i]? := by
  induction k with
  | zero => exact ⟨g.missoes, rfl, rfl, fun i => by simp⟩
  | succ k ih =>
    obtain ⟨ms, h1, hlen, hpt⟩ := ih (by omega)
    have hklt : k < ms.length := by omega
    have hx : ms[k]? = some ms[k] := List.getElem?_eq_getElem hklt
    refine ⟨ms.set k (missaoDominar alvo), ?_, by simp [hlen], ?_⟩
    · rw [inicializarMissoesAte, h1]
      simp only [inicializarMissaoPasso, modIdx?_natCast ms k _ _ hx, missaoDominar]
    · intro i
      rw [List.getElem?_set]
      by_cases hik : k = i
      · subst hik
        simp [hklt]
      · have := hpt i
        by_cases hlt : i < k
        · have h2 : i < k + 1 := by omega
          simp [hik, hlt, h2, this]
        · have h2 : ¬ i < k + 1 := by omega
          simp [hik, hlt, h2, this]

theorem distribuirAte_spec (g : Game) (k : Nat) (hk : k ≤ g.territorios.length)
    (hP : 0 < g.jogadores.length) :
    ∃ ts js, distribuirAte g k = some { g with territorios := ts, jogadores := js } ∧
      ts.length = g.territorios.length ∧ js.length = g.jogadores.length ∧
      (∀ i, ts[i]? =
        if i < k then
          (g.territorios[i]?).map
            (fun t => { t with dono := ((i % g.jogadores.length : Nat) : Int), tropas := 3 })
        else g.territorios[i]?) ∧
      (∀ p : Nat, js[p]? =
        (g.jogadores[p]?).map
          (fun q : Player => { q with
            numTerritorios := q.numTerritorios +
              ((Nat.count (fun i => i % g.jogadores.length = p) k : Nat) : Int) })) := by
  induction k with
  | zero =>
    refine ⟨g.territorios, g.jogadores, rfl, rfl, rfl, fun i => by simp, fun p => ?_⟩
    cases g.jogadores[p]? <;> simp
  | succ k ih =>
    obtain ⟨ts, js, h1, hlen, hjlen, hpt, hjs⟩ := ih (by omega)
    have hklt : k < ts.length := by omega
    have hx : ts[k]? = some ts[k] := List.getElem?_eq_getElem hklt
    have hmod : k % g.jogadores.length < js.length := by
      rw [hjlen]; exact Nat.mod_lt _ hP
    have hy : js[k % g.jogadores.length]? = some js[k % g.jogadores.length] :=
      List.getElem?_eq_getElem hmod
    refine ⟨ts.set k { ts[k] with dono := ((k % g.jogadores.length : Nat) : Int), tropas := 3 },
      js.set (k % g.jogadores.length)
        { js[k % g.jogadores.length] with
          numTerritorios := js[k % g.jogadores.length].numTerritorios + 1 },
      ?_, by simp [hlen], by simp [hjlen], ?_, ?_⟩
    · rw [distribuirAte, h1]
      have hn : ¬ ((g.jogadores.length : Int) = 0) := by omega
      simp only [distribuirPasso, Game.numJogadores, hjlen, hn, if_false,
        modIdx?_natCast ts k _ _ hx, ← Int.ofNat_tmod,
        modIdx?_natCast js (k % g.jogadores.length) _ _ hy]
    · intro i
      rw [List.getElem?_set]
      by_cases hik : k = i
      · subst hik
        have h3 := hpt k
        simp only [lt_irrefl, if_false] at h3
        rw [hx] at h3
        simp [hklt, ← h3]
      · have := hpt i
        by_cases hlt : i < k
        · have h2 : i < k + 1 := by omega
          simp [hik, hlt, h2, this]
        · have h2 : ¬ i < k + 1 := by omega
          simp [hik, hlt, h2, this]
    · intro p
      rw [List.getElem?_set, Nat.count_succ]
      have hp := hjs p
      by_cases hpk : k % g.jogadores.length = p
      · subst hpk
        rw [hy] at hp
        cases hq : g.jogadores[k % g.jogadores.length]? with
        | none => simp [hq] at hp
        | some q =>
          simp only [hq, Option.map_some', Option.some.injEq] at hp
          simp only [if_true, hmod, Option.map_some', Option.some.injEq, hp]
          simp only [Player.mk.injEq, true_and]
          push_cast
          ring
      · simp [hpk, hp]

/-- The state after `distribuirTerritorios` on a new game of `T` territories and
`P >= 1` players. -/
theorem jogoDistribuido_eq (T P : Nat) (hP : 1 ≤ P) :
    jogoDistribuido (T : Int) (P : Int) =
      some { estadoInicial T P with missoes := List.replicate P Mission.zero } := by
  have hc : criarJogo (T : Int) (P : Int) = some
      { territorios := List.replicate T Territory.zero
        jogadores := List.replicate P Player.zero
        missoes := List.replicate P Mission.zero } := by
    have : ¬ ((T : Int) < 0 ∨ (P : Int) < 0) := by omega
    simp [criarJogo, this]
  obtain ⟨ts1, h1, hl1, hp1⟩ := inicializarTerritoriosAte_spec
    { territorios := List.replicate T Territory.zero
      jogadores := List.replicate P Player.zero
      missoes := List.replicate P Mission.zero } T (by simp)
  obtain ⟨js2, h2, hl2, hp2⟩ := inicializarJogadoresAte_spec
    { territorios := ts1
      jogadores := List.replicate P Player.zero
      missoes := List.replicate P Mission.zero } P (by simp)
  simp only [List.length_replicate] at hl1 hp1 hl2 hp2
  obtain ⟨ts3, js3, h3, hl3, hjl3, hp3, hj3⟩ := distribuirAte_spec
    { territorios := ts1
      jogadores := js2
      missoes := List.replicate P Mission.zero } T (by simp [hl1]) (by simp [hl2]; omega)
  simp only at hl3 hjl3 hp3 hj3
  simp only [hl2] at hjl3 hj3 hp3
  simp only [hl1] at hl3
  have hfinal : jogoDistribuido (T : Int) (P : Int) = some
      { territorios := ts3, jogadores := js3, missoes := List.replicate P Mission.zero } := by
    unfold jogoDistribuido
    rw [hc]
    simp only [inicializarTerritoriosPadrao, Game.numTerritorios, List.length_replicate,
      Int.toNat_ofNat, h1]
    simp only [inicializarJogadores, Game.numJogadores, List.length_replicate,
      Int.toNat_ofNat, h2]
    simp only [distribuirTerritorios, Game.numTerritorios, hl1, Int.toNat_ofNat, h3]
  rw [hfinal, estadoInicial]
  have e1 : ts3 = (List.range T).map
      (fun i => { territorioAnel T i with dono := ((i % P : Nat) : Int), tropas := 3 }) := by
    apply List.ext_getElem?
    intro i
    rw [hp3 i, hp1 i, List.getElem?_map]
    by_cases hi : i < T
    · simp [hi, List.getElem?_range hi]
    · have h5 : (List.range T)[i]? = none := by
        rw [List.getElem?_eq_none_iff]; simp; omega
      have h6 : (List.replicate T Territory.zero)[i]? = none := by
        rw [List.getElem?_eq_none_iff]; simp; omega
      simp [hi, h5, h6]
  have e2 : js3 = (List.range P).map
      (fun p : Nat =>
        { id := (p : Int),
          numTerritorios := ((Nat.count (fun i => i % P = p) T : Nat) : Int) }) := by
    apply List.ext_getElem?
    intro p
    rw [hj3 p, hp2 p, List.getElem?_map]
    by_cases hi : p < P
    · simp [hi, List.getElem?_range hi]
    · have h5 : (List.range P)[p]? = none := by
        rw [List.getElem?_eq_none_iff]; simp; omega
      have h6 : (List.replicate P Player.zero)[p]? = none := by
        rw [List.getElem?_eq_none_iff]; simp; omega
      simp [hi, h5, h6]
  rw [e1, e2]

/-- The state built by `setup` for `T` territories and `P >= 1` players. -/
theorem setup_eq (T P : Nat) (hP : 1 ≤ P) :
    setup (T : Int) (P : Int) = some (estadoInicial T P) := by
  obtain ⟨ms4, h4, hl4, hp4⟩ := inicializarMissoesAte_spec
    ((Int.tdiv (T : Int) (P : Int)) + 1)
    { estadoInicial T P with missoes := List.replicate P Mission.zero } P (by simp)
  simp only [List.length_replicate] at hl4 hp4
  have hne : ¬ ((P : Int) = 0) := by omega
  have e3 : ms4 = List.replicate P (missaoDominar ((T : Int) / (P : Int) + 1)) := by
    apply List.ext_getElem?
    intro i
    rw [hp4 i, List.getElem?_replicate, List.getElem?_replicate,
      Int.tdiv_eq_ediv (by omega) (by omega)]
    by_cases hi : i < P <;> simp [hi]
  unfold setup
  rw [jogoDistribuido_eq T P hP]
  simp only [inicializarMissoes, Game.numTerritorios, Game.numJogadores, estadoInicial,
    List.length_map, List.length_range, hne, if_false, Int.toNat_ofNat]
  simp only [estadoInicial] at h4
  rw [h4, e3]

/-! ## Counting territories -/

theorem contarTerritorios_foldl (ts : List Territory) (id c : Int) :
    ts.foldl (fun count t => if t.dono = id then count + 1 else count) c =
      c + (ts.countP (fun t => decide (t.dono = id)) : Nat) := by
  induction ts generalizing c with
  | nil => simp
  | cons t ts ih =>
    rw [List.foldl_cons, ih, List.countP_cons]
    by_cases h : t.dono = id
    · simp only [h, if_true, decide_True]
      push_cast
      ring
    · simp [h]

/-- The counting loop of `missionDominarNTerritorios` counts the territories of the
player. -/
theorem contarTerritorios_eq (game : Game) (id : Int) :
    contarTerritorios game.territorios id = (ownershipCount game id : Int) := by
  unfold contarTerritorios ownershipCount
  rw [contarTerritorios_foldl, zero_add]

theorem count_mod_eq (T P k : Nat) (hP : 0 < P) (hk : k < P) :
    Nat.count (fun i => i % P = k) T = T / P + if k < T % P then 1 else 0 := by
  have h := Nat.count_modEq_card T hP k
  rw [Nat.mod_eq_of_lt hk] at h
  rw [← h]
  unfold Nat.count
  apply List.countP_congr
  intro i _
  simp [Nat.ModEq, Nat.mod_eq_of_lt hk]

/-- In the state built by `setup`, player `k` owns the territories `i` with
`i % P = k`. -/
theorem ownershipCount_estadoInicial (T P k : Nat) :
    ownershipCount (estadoInicial T P) (k : Int) = Nat.count (fun i => i % P = k) T := by
  unfold ownershipCount estadoInicial Nat.count
  rw [List.countP_map]
  apply List.countP_congr
  intro i _
  simp only [Function.comp, decide_eq_true_eq]
  exact Nat.cast_inj

theorem idx?_jogadores_estadoInicial (T P : Nat) (k : Int) (p : Player)
    (h : idx? (estadoInicial T P).jogadores k = some p) :
    0 ≤ k ∧ k < (P : Int) ∧ p.id = k ∧
      p.numTerritorios = ((Nat.count (fun i => i % P = k.toNat) T : Nat) : Int) := by
  have hlt := idx?_lt h
  rw [idx?_eq_some_iff] at h
  obtain ⟨h0, h1⟩ := h
  simp only [estadoInicial, List.length_map, List.length_range] at hlt
  have hk : k.toNat < P := by omega
  simp only [estadoInicial, List.getElem?_map, List.getElem?_range hk, Option.map_some',
    Option.some.injEq] at h1
  subst h1
  refine ⟨h0, hlt.2, ?_, rfl⟩
  simp only
  omega

/-! ## What an attack keeps -/

/-- Any call of `atacar` that returns keeps the number of territories, the missions,
the number of players and the players' ids. -/
theorem atacar_preserva (rand : Nat → Nat) (game : Game) (pos : Nat)
    (idJogador idOrigem idAlvo tropas : Int) (r : Resultado)
    (h : atacar rand game pos idJogador idOrigem idAlvo tropas = some r) :
    r.game.territorios.length = game.territorios.length ∧
    r.game.missoes = game.missoes ∧
    r.game.jogadores.length = game.jogadores.length ∧
    ∀ k, (idx? r.game.jogadores k).map Player.id = (idx? game.jogadores k).map Player.id := by
  rcases atacar_forma rand game pos idJogador idOrigem idAlvo tropas r h with
    hg | ⟨origem, alvo, ho, ha, hv, hcase⟩
  · rw [hg]
    exact ⟨rfl, rfl, rfl, fun _ => rfl⟩
  · rcases hcase with ⟨_, hg⟩ | ⟨_, js1, js2, h1, h2, hg⟩
    · rw [hg]
      exact ⟨by simp, rfl, rfl, fun _ => rfl⟩
    · obtain ⟨hlen, _, hids⟩ := contagem_frame game.jogadores js1 js2 idJogador
        alvo.dono h1 h2
      rw [hg]
      exact ⟨by simp, rfl, hlen, hids⟩

/-- What every state of a game set up with `T` territories and `P >= 1` players
has in common with the state after `setup`. -/
theorem alcancavel_inv (T P : Nat) (hP : 1 ≤ P) (g : Game)
    (h : Alcancavel (T : Int) (P : Int) g) :
    g.territorios.length = T ∧
    g.missoes = List.replicate P (missaoDominar ((T : Int) / (P : Int) + 1)) ∧
    g.jogadores.length = P ∧
    ∀ k, (idx? g.jogadores k).map Player.id =
      (idx? (estadoInicial T P).jogadores k).map Player.id := by
  induction h with
  | inicio g hg =>
    rw [setup_eq T P hP] at hg
    cases hg
    exact ⟨by simp [estadoInicial], rfl, by simp [estadoInicial], fun _ => rfl⟩
  | passo g rand pos j o a t r _ hr ih =>
    obtain ⟨h1, h2, h3, h4⟩ := atacar_preserva rand g pos j o a t r hr
    obtain ⟨i1, i2, i3, i4⟩ := ih
    exact ⟨h1.trans i1, h2.trans i2, h3.trans i3, fun k => (h4 k).trans (i4 k)⟩

/-- The mission check on a game whose missions are those of `setup`. -/
theorem verificarVitoria_eq (g : Game) (p : Player) (P : Nat) (alvo : Int)
    (hm : g.missoes = List.replicate P (missaoDominar alvo))
    (hp : 0 ≤ p.id ∧ p.id < (P : Int)) :
    verificarVitoria g p =
      some (if (ownershipCount g p.id : Int) ≥ alvo then 1 else 0) := by
  have hidx : idx? g.missoes p.id = some (missaoDominar alvo) := by
    rw [idx?_eq_some_iff, hm]
    refine ⟨hp.1, ?_⟩
    rw [List.getElem?_replicate, if_pos (by omega)]
  simp only [verificarVitoria, hidx, missaoDominar, MissionCheckFunc.call,
    missionDominarNTerritorios, contarTerritorios_eq]

/-- The state after `setup 6 2`. -/
theorem setup_6_2 : setup 6 2 = some jogo62 := by decide

/-! ## Rejected attacks -/

/-- C1: a call of `atacar` for which some validation fails (an id out of range,
origin not owned by the player, `tropas <= 0` or `tropas >= origin.tropas`, origin
equal to target, target not a neighbour) returns 0, leaves the whole game state as
it was and rolls no die (the cursor of the random stream does not move). -/
theorem atacar_rejeitado_estado_inalterado (rand : Nat → Nat) (game : Game) (pos : Nat)
    (idJogador idOrigem idAlvo tropas : Int)
    (h : ∃ c ∈ validacoes game idJogador idOrigem idAlvo tropas, c.2 = false) :
    ∃ r, atacar rand game pos idJogador idOrigem idAlvo tropas = some r ∧
      r.ret = 0 ∧ r.game = game ∧ r.pos = pos := by
  have hnv : ¬ Valido game idJogador idOrigem idAlvo tropas := by
    intro hv
    obtain ⟨c, hc, hf⟩ := h
    rw [hv c hc] at hf
    exact absurd hf (by decide)
  cases hp : primeiraFalha game idJogador idOrigem idAlvo tropas with
  | none => exact absurd ((primeiraFalha_eq_none_iff _ _ _ _ _).1 hp) hnv
  | some e =>
    exact ⟨_, (atacar_primeiraFalha rand game pos idJogador idOrigem idAlvo tropas).1 e hp,
      rfl, rfl, rfl⟩

/-- C1, on the state after `setup 6 2`: player 0 attacks from territory 0 with all
3 troops of the origin. -/
theorem atacar_rejeitado_estado_inalterado_witness :
    (∃ c ∈ validacoes jogo62 0 0 1 3, c.2 = false) ∧
    ∃ r, atacar randExemplo jogo62 0 0 0 1 3 = some r ∧
      r.ret = 0 ∧ r.game = jogo62 ∧ r.pos = 0 :=
  ⟨by decide, atacar_rejeitado_estado_inalterado randExemplo jogo62 0 0 0 1 3 (by decide)⟩

/-- C2: `atacar` goes on to the dice phase exactly when the five validations hold
(valid ids, origin owned by the player, `0 < tropas < origin.tropas`, origin
different from target, target in the neighbour list of the origin); otherwise it
returns 0 without touching the state and reports the condition of the first
validation that fails, in the order 1..5. -/
theorem atacar_validacao_exata (rand : Nat → Nat) (game : Game) (pos : Nat)
    (idJogador idOrigem idAlvo tropas : Int) :
    ((0 ≤ idOrigem ∧ idOrigem < game.numTerritorios ∧
      0 ≤ idAlvo ∧ idAlvo < game.numTerritorios ∧
      ∃ origem, idx? game.territorios idOrigem = some origem ∧
        origem.dono = idJogador ∧ 0 < tropas ∧ tropas < origem.tropas ∧
        idOrigem ≠ idAlvo ∧ idAlvo ∈ origem.vizinhos) ↔
      ∃ origem alvo, idx? game.territorios idOrigem = some origem ∧
        idx? game.territorios idAlvo = some alvo ∧
        atacar rand game pos idJogador idOrigem idAlvo tropas =
          resolverAtaque rand game pos idJogador idOrigem idAlvo tropas origem alvo) ∧
    ((∃ c ∈ validacoes game idJogador idOrigem idAlvo tropas, c.2 = false) ↔
      ∃ e, primeiraFalha game idJogador idOrigem idAlvo tropas = some e ∧
        atacar rand game pos idJogador idOrigem idAlvo tropas =
          some ⟨0, game, pos, [e.mensagem]⟩) := by
  have key := atacar_primeiraFalha rand game pos idJogador idOrigem idAlvo tropas
  have hnone := primeiraFalha_eq_none_iff game idJogador idOrigem idAlvo tropas
  rw [← valido_iff]
  have hiff : (∃ c ∈ validacoes game idJogador idOrigem idAlvo tropas, c.2 = false) ↔
      ¬ Valido game idJogador idOrigem idAlvo tropas := by
    unfold Valido
    constructor
    · rintro ⟨c, hc, hf⟩ hv
      rw [hv c hc] at hf
      exact absurd hf (by decide)
    · intro hv
      by_contra hne
      apply hv
      intro c hc
      cases hb : c.2
      · exact absurd ⟨c, hc, hb⟩ hne
      · rfl
  constructor
  · constructor
    · intro hv
      exact key.2 (hnone.2 hv)
    · rintro ⟨origem, alvo, ho, ha, heq⟩
      by_contra hv
      cases hp : primeiraFalha game idJogador idOrigem idAlvo tropas with
      | none => exact hv (hnone.1 hp)
      | some e =>
        rw [key.1 e hp] at heq
        have := resolverAtaque_saida rand game pos idJogador idOrigem idAlvo tropas origem alvo
          _ heq.symm
        simp at this
  · rw [hiff]
    constructor
    · intro hv
      cases hp : primeiraFalha game idJogador idOrigem idAlvo tropas with
      | none => exact absurd (hnone.1 hp) hv
      | some e => exact ⟨e, rfl, key.1 e hp⟩
    · rintro ⟨e, he, _⟩ hv
      rw [hnone.2 hv] at he
      exact absurd he (by simp)

/-! ## Outcome of a validated attack -/

/-- C4: a validated attack whose attack score exceeds the defence score returns 1
and leaves the target owned by the attacker with exactly the committed troops, and
the origin with its previous troops minus the committed ones.  The attacker id and
the previous owner of the target are taken to be indices inside `jogadores` (or the
target neutral), as they are in every state the program builds. -/
theorem atacar_conquista (rand : Nat → Nat) (game : Game) (pos : Nat)
    (idJogador idOrigem idAlvo tropas : Int) (origem alvo : Territory)
    (hv : Valido game idJogador idOrigem idAlvo tropas)
    (ho : idx? game.territorios idOrigem = some origem)
    (ha : idx? game.territorios idAlvo = some alvo)
    (hj : 0 ≤ idJogador ∧ idJogador < game.numJogadores)
    (hd : alvo.dono = -1 ∨ (0 ≤ alvo.dono ∧ alvo.dono < game.numJogadores))
    (hs : attackScore rand pos tropas > defenseScore rand pos tropas alvo) :
    ∃ r, atacar rand game pos idJogador idOrigem idAlvo tropas = some r ∧
      r.ret = 1 ∧
      idx? r.game.territorios idAlvo = some { alvo with dono := idJogador, tropas := tropas } ∧
      idx? r.game.territorios idOrigem =
        some { origem with tropas := origem.tropas - tropas } := by
  obtain ⟨heq, h2, h3, h3b, h4, h5⟩ :=
    atacar_valido rand game pos idJogador idOrigem idAlvo tropas origem alvo hv ho ha
  obtain ⟨js1, js2, h1, hh2⟩ := contagem_ok game idJogador alvo hj hd
  have ha1 : idx? (game.territorios.set idOrigem.toNat
      { origem with tropas := origem.tropas - tropas }) idAlvo = some alvo := by
    rw [idx?_set_ne _ _ _ _ (idx?_lt ho).1 (Ne.symm h4), ha]
  rw [heq, resolverAtaque_eq rand game pos idJogador idOrigem idAlvo tropas origem alvo
    ho ha h4 h3b, if_pos hs, h1]
  simp only [hh2]
  refine ⟨_, rfl, rfl, ?_, ?_⟩
  · exact idx?_set_self _ _ _ _ ha1
  · show idx? (List.set _ _ _) idOrigem = _
    rw [idx?_set_ne _ _ _ _ (idx?_lt ha).1 h4]
    exact idx?_set_self _ _ _ _ ho

/-- C4, on the state after `setup 6 2`: player 0 attacks territory 1 from
territory 0 with 2 troops; the rolls are 6, 6 against 1, 1, 1. -/
theorem atacar_conquista_witness :
    ∃ r, atacar randExemplo jogo62 0 0 0 1 2 = some r ∧
      r.ret = 1 ∧
      idx? r.game.territorios 1 = some ⟨1, 0, 2, [0, 2]⟩ ∧
      idx? r.game.territorios 0 = some ⟨0, 0, 1, [5, 1]⟩ :=
  atacar_conquista randExemplo jogo62 0 0 0 1 2 ⟨0, 0, 3, [5, 1]⟩ ⟨1, 1, 3, [0, 2]⟩
    (by decide) (by decide) (by decide) (by decide) (by decide) (by decide)

/-- C5: a validated attack whose attack score does not exceed the defence score
returns 0, leaves the origin with its previous troops minus exactly the committed
ones (which is positive, so the floor at 0 does not apply), and leaves the target,
every other territory, every player counter and every mission as they were. -/
theorem atacar_fracasso (rand : Nat → Nat) (game : Game) (pos : Nat)
    (idJogador idOrigem idAlvo tropas : Int) (origem alvo : Territory)
    (hv : Valido game idJogador idOrigem idAlvo tropas)
    (ho : idx? game.territorios idOrigem = some origem)
    (ha : idx? game.territorios idAlvo = some alvo)
    (hs : attackScore rand pos tropas ≤ defenseScore rand pos tropas alvo) :
    ∃ r, atacar rand game pos idJogador idOrigem idAlvo tropas = some r ∧
      r.ret = 0 ∧
      idx? r.game.territorios idOrigem =
        some { origem with tropas := origem.tropas - tropas } ∧
      0 < origem.tropas - tropas ∧
      idx? r.game.territorios idAlvo = some alvo ∧
      r.game.jogadores = game.jogadores ∧
      r.game.missoes = game.missoes := by
  obtain ⟨heq, h2, h3, h3b, h4, h5⟩ :=
    atacar_valido rand game pos idJogador idOrigem idAlvo tropas origem alvo hv ho ha
  have hs2 : ¬ (attackScore rand pos tropas > defenseScore rand pos tropas alvo) := by omega
  rw [heq, resolverAtaque_eq rand game pos idJogador idOrigem idAlvo tropas origem alvo
    ho ha h4 h3b, if_neg hs2]
  refine ⟨_, rfl, rfl, ?_, by omega, ?_, rfl, rfl⟩
  · exact idx?_set_self _ _ _ _ ho
  · show idx? (List.set _ _ _) idAlvo = _
    rw [idx?_set_ne _ _ _ _ (idx?_lt ho).1 (Ne.symm h4)]
    exact ha

/-- C5, on the state after `setup 6 2`: player 0 attacks territory 1 from
territory 0 with 2 troops; every roll is 1, so the scores are 2 against 3. -/
theorem atacar_fracasso_witness :
    ∃ r, atacar randUns jogo62 0 0 0 1 2 = some r ∧
      r.ret = 0 ∧
      idx? r.game.territorios 0 = some ⟨0, 0, 1, [5, 1]⟩ ∧
      (0 : Int) < 3 - 2 ∧
      idx? r.game.territorios 1 = some ⟨1, 1, 3, [0, 2]⟩ ∧
      r.game.jogadores = jogo62.jogadores ∧
      r.game.missoes = jogo62.missoes :=
  atacar_fracasso randUns jogo62 0 0 0 1 2 ⟨0, 0, 3, [5, 1]⟩ ⟨1, 1, 3, [0, 2]⟩
    (by decide) (by decide) (by decide) (by decide)

/-- C6: in a validated attack the dice loops compute the attack score as the sum
of the first `tropas` rolls and the defence score as the sum of the next
`alvo.tropas` rolls, and the call is a conquest (returns 1, target handed to the
attacker) exactly when the attack score is strictly greater; otherwise, a tie
included, it returns 0 and the target stays as it was.  The attacker id and the
previous owner of the target are taken to be indices inside `jogadores` (or the
target neutral), as they are in every state the program builds. -/
theorem atacar_resultado_estrito (rand : Nat → Nat) (game : Game) (pos : Nat)
    (idJogador idOrigem idAlvo tropas : Int) (origem alvo : Territory)
    (hv : Valido game idJogador idOrigem idAlvo tropas)
    (ho : idx? game.territorios idOrigem = some origem)
    (ha : idx? game.territorios idAlvo = some alvo)
    (hj : 0 ≤ idJogador ∧ idJogador < game.numJogadores)
    (hd : alvo.dono = -1 ∨ (0 ≤ alvo.dono ∧ alvo.dono < game.numJogadores)) :
    (somarDados rand tropas.toNat 0 pos).1 = attackScore rand pos tropas ∧
    (somarDados rand alvo.tropas.toNat 0 (somarDados rand tropas.toNat 0 pos).2).1 =
      defenseScore rand pos tropas alvo ∧
    ∃ r, atacar rand game pos idJogador idOrigem idAlvo tropas = some r ∧
      r.pos = pos + tropas.toNat + alvo.tropas.toNat ∧
      Msg.resultadoDados (attackScore rand pos tropas) (defenseScore rand pos tropas alvo)
        ∈ r.saida ∧
      (r.ret = 1 ↔ attackScore rand pos tropas > defenseScore rand pos tropas alvo) ∧
      (r.ret = 0 ↔ attackScore rand pos tropas ≤ defenseScore rand pos tropas alvo) ∧
      (attackScore rand pos tropas > defenseScore rand pos tropas alvo →
        idx? r.game.territorios idAlvo =
          some { alvo with dono := idJogador, tropas := tropas }) ∧
      (attackScore rand pos tropas ≤ defenseScore rand pos tropas alvo →
        idx? r.game.territorios idAlvo = some alvo) := by
  refine ⟨by simp [somarDados_eq, attackScore], by simp [somarDados_eq, defenseScore], ?_⟩
  obtain ⟨heq, h2, h3, h3b, h4, h5⟩ :=
    atacar_valido rand game pos idJogador idOrigem idAlvo tropas origem alvo hv ho ha
  obtain ⟨js1, js2, h1, hh2⟩ := contagem_ok game idJogador alvo hj hd
  have ha1 : idx? (game.territorios.set idOrigem.toNat
      { origem with tropas := origem.tropas - tropas }) idAlvo = some alvo := by
    rw [idx?_set_ne _ _ _ _ (idx?_lt ho).1 (Ne.symm h4), ha]
  rw [heq, resolverAtaque_eq rand game pos idJogador idOrigem idAlvo tropas origem alvo
    ho ha h4 h3b]
  by_cases hs : attackScore rand pos tropas > defenseScore rand pos tropas alvo
  · rw [if_pos hs, h1]
    simp only [hh2]
    refine ⟨_, rfl, rfl, by simp, ?_, ?_, ?_, ?_⟩
    · simp [hs]
    · simp only [one_ne_zero, false_iff]; omega
    · intro _
      exact idx?_set_self _ _ _ _ ha1
    · intro hle
      omega
  · rw [if_neg hs]
    refine ⟨_, rfl, rfl, by simp, ?_, ?_, ?_, ?_⟩
    · simp [hs]
    · simp only [true_iff]; omega
    · intro hgt
      exact absurd hgt hs
    · intro _
      exact ha1

/-- C6, on the state after `setup 6 2` with a tie: player 0 attacks territory 1
(3 troops) from territory 0 with 2 troops; the rolls are 2, 1 against 1, 1, 1. -/
theorem atacar_resultado_estrito_witness :
    attackScore (fun k => [1, 0].getD k 0) 0 2 = 3 ∧
    defenseScore (fun k => [1, 0].getD k 0) 0 2 ⟨1, 1, 3, [0, 2]⟩ = 3 ∧
    ∃ r, atacar (fun k => [1, 0].getD k 0) jogo62 0 0 0 1 2 = some r ∧
      r.ret = 0 ∧ idx? r.game.territorios 1 = some ⟨1, 1, 3, [0, 2]⟩ := by
  obtain ⟨_, _, r, hr, _, _, _, h0, _, hkeep⟩ :=
    atacar_resultado_estrito (fun k => [1, 0].getD k 0) jogo62 0 0 0 1 2
      ⟨0, 0, 3, [5, 1]⟩ ⟨1, 1, 3, [0, 2]⟩
      (by decide) (by decide) (by decide) (by decide) (by decide)
  exact ⟨by decide, by decide, r, hr, h0.2 (by decide), hkeep (by decide)⟩

/-! ## Frame of an attack -/

/-- C7: whatever a call of `atacar` returns (rejection, failure or conquest), every
territory other than the origin and the target is as it was; every territory keeps
its id and its neighbour list; the number of territories and of players, the
players' ids and all missions are as they were; and every player other than the
attacker and the previous owner of the target keeps its counter.  In a well-formed
game the call does return. -/
theorem atacar_frame (rand : Nat → Nat) (game : Game) (pos : Nat)
    (idJogador idOrigem idAlvo tropas : Int) :
    (BemFormado game →
      ∃ r, atacar rand game pos idJogador idOrigem idAlvo tropas = some r) ∧
    ∀ r, atacar rand game pos idJogador idOrigem idAlvo tropas = some r →
      r.game.territorios.length = game.territorios.length ∧
      (∀ i, i ≠ idOrigem → i ≠ idAlvo →
        idx? r.game.territorios i = idx? game.territorios i) ∧
      (∀ i, (idx? r.game.territorios i).map Territory.id =
        (idx? game.territorios i).map Territory.id) ∧
      (∀ i, (idx? r.game.territorios i).map Territory.vizinhos =
        (idx? game.territorios i).map Territory.vizinhos) ∧
      r.game.missoes = game.missoes ∧
      r.game.jogadores.length = game.jogadores.length ∧
      (∀ k, (idx? r.game.jogadores k).map Player.id =
        (idx? game.jogadores k).map Player.id) ∧
      (∀ k, k ≠ idJogador →
        (∀ alvo, idx? game.territorios idAlvo = some alvo → k ≠ alvo.dono) →
        idx? r.game.jogadores k = idx? game.jogadores k) := by
  refine ⟨atacar_isSome rand game pos idJogador idOrigem idAlvo tropas, ?_⟩
  intro r h
  rcases atacar_forma rand game pos idJogador idOrigem idAlvo tropas r h with
    hg | ⟨origem, alvo, ho, ha, hv, hcase⟩
  · rw [hg]
    exact ⟨rfl, fun _ _ _ => rfl, fun _ => rfl, fun _ => rfl, rfl, rfl, fun _ => rfl,
      fun _ _ _ => rfl⟩
  · have ho0 := (idx?_lt ho).1
    have ha0 := (idx?_lt ha).1
    have hne : idOrigem ≠ idAlvo := ((valido_iff _ _ _ _ _).1 hv).2.2.2.2.elim
      (fun _ hx => hx.2.2.2.2.1)
    have ha1 : idx? (game.territorios.set idOrigem.toNat
        { origem with tropas := origem.tropas - tropas }) idAlvo = some alvo := by
      rw [idx?_set_ne _ _ _ _ ho0 (Ne.symm hne), ha]
    rcases hcase with ⟨_, hg⟩ | ⟨_, js1, js2, h1, h2, hg⟩
    · rw [hg]
      refine ⟨by simp, ?_, ?_, ?_, rfl, rfl, fun _ => rfl, fun _ _ _ => rfl⟩
      · intro i hi _
        exact idx?_set_ne _ _ _ _ ho0 hi
      · intro i
        exact idx?_set_map _ _ _ origem _ _ ho rfl
      · intro i
        exact idx?_set_map _ _ _ origem _ _ ho rfl
    · obtain ⟨hlen, hother, hids⟩ := contagem_frame game.jogadores js1 js2 idJogador
        alvo.dono h1 h2
      rw [hg]
      refine ⟨by simp, ?_, ?_, ?_, rfl, hlen, hids, ?_⟩
      · intro i hi hi2
        show idx? (List.set _ _ _) i = _
        rw [idx?_set_ne _ _ _ _ ha0 hi2]
        exact idx?_set_ne _ _ _ _ ho0 hi
      · intro i
        show (idx? (List.set _ _ _) i).map _ = _
        have e1 : (idx? ((game.territorios.set idOrigem.toNat
            { origem with tropas := origem.tropas - tropas }).set idAlvo.toNat
            { alvo with dono := idJogador, tropas := tropas }) i).map Territory.id =
            (idx? (game.territorios.set idOrigem.toNat
              { origem with tropas := origem.tropas - tropas }) i).map Territory.id :=
          idx?_set_map _ _ _ alvo _ _ ha1 rfl
        rw [e1]
        exact idx?_set_map _ _ _ origem _ _ ho rfl
      · intro i
        show (idx? (List.set _ _ _) i).map _ = _
        have e1 : (idx? ((game.territorios.set idOrigem.toNat
            { origem with tropas := origem.tropas - tropas }).set idAlvo.toNat
            { alvo with dono := idJogador, tropas := tropas }) i).map Territory.vizinhos =
            (idx? (game.territorios.set idOrigem.toNat
              { origem with tropas := origem.tropas - tropas }) i).map Territory.vizinhos :=
          idx?_set_map _ _ _ alvo _ _ ha1 rfl
        rw [e1]
        exact idx?_set_map _ _ _ origem _ _ ho rfl
      · intro k hk hk2
        exact hother k hk (hk2 alvo ha)

/-- C7, on the state after `setup 6 2`, for the conquest of territory 1 by player 0
from territory 0: the call returns, and territory 3 is as it was. -/
theorem atacar_frame_witness :
    BemFormado jogo62 ∧
    ∃ r, atacar randExemplo jogo62 0 0 0 1 2 = some r ∧
      idx? r.game.territorios 3 = some ⟨3, 1, 3, [2, 4]⟩ ∧
      r.game.missoes = jogo62.missoes := by
  obtain ⟨r, hr⟩ := (atacar_frame randExemplo jogo62 0 0 0 1 2).1 (by decide)
  obtain ⟨_, h3, _, _, hm, _⟩ := (atacar_frame randExemplo jogo62 0 0 0 1 2).2 r hr
  exact ⟨by decide, r, hr, (h3 3 (by decide) (by decide)).trans (by decide), hm⟩

/-! ## Cached territory counts -/

/-- C3, evaluated.  After `setup 3 2` player 0 owns territories 0 and 2, which are
neighbours; it attacks territory 2 from territory 0 with 2 troops and the rolls are
6, 6 against 1, 1, 1.  The call passes every validation and is a conquest; it
increments the counter of player 0 although no territory changes owner: the counter
is 3 while player 0 owns 2 territories, and the counters sum to 4 for 3 territories.
The same happens in the configuration of `main`, `setup 6 2`, once player 0 has
conquered territory 1 and then attacks it from territory 2: counter 5 for 4
territories owned, sum 7 for 6 territories. -/
theorem contagem_diverge_apos_autoataque :
    (setup 3 2 = some jogo32 ∧
      Valido jogo32 0 0 2 2 ∧
      atacar randExemplo jogo32 0 0 0 2 2 =
        some ⟨1, jogo32A, 5, [Msg.ataque 3 3, Msg.resultadoDados 12 3, Msg.conquistado]⟩ ∧
      idx? jogo32A.jogadores 0 = some ⟨0, 3⟩ ∧
      ownershipCount jogo32A 0 = 2 ∧
      (jogo32A.jogadores.map Player.numTerritorios).sum = 4 ∧
      jogo32A.numTerritorios = 3) ∧
    (setup 6 2 = some jogo62 ∧
      atacar randExemplo jogo62 0 0 0 1 2 =
        some ⟨1, jogo62A, 5, [Msg.ataque 3 3, Msg.resultadoDados 12 3, Msg.conquistado]⟩ ∧
      Valido jogo62A 0 2 1 2 ∧
      atacar randExemplo jogo62A 5 0 2 1 2 =
        some ⟨1, jogo62B, 9, [Msg.ataque 3 2, Msg.resultadoDados 12 2, Msg.conquistado]⟩ ∧
      idx? jogo62B.jogadores 0 = some ⟨0, 5⟩ ∧
      ownershipCount jogo62B 0 = 4 ∧
      (jogo62B.jogadores.map Player.numTerritorios).sum = 7 ∧
      jogo62B.numTerritorios = 6) := by
  refine ⟨⟨by decide, by decide, by decide, by decide, by decide, by decide, by decide⟩,
    ⟨by decide, by decide, by decide, by decide, by decide, by decide, by decide,
      by decide⟩⟩

/-! ## Victory -/

/-- C8: for a game set up with `T >= 3` territories and `P >= 1` players, `setup`
succeeds, and in the state it builds and in every state reached from it by calls of
`atacar`, the player at index `k` has id `k`, its mission has target
`floor(T / P) + 1`, and `verificarVitoria` returns 1 exactly when the number of
territories whose `dono` is that id (counted over the territories) is at least that
target, and 0 otherwise. -/
theorem verificarVitoria_alcancavel (T P : Int) (hT : 3 ≤ T) (hP : 1 ≤ P) :
    (∃ g, setup T P = some g) ∧
    ∀ g, Alcancavel T P g →
      g.numJogadores = P ∧
      ∀ k p, idx? g.jogadores k = some p →
        p.id = k ∧
        (∃ m, idx? g.missoes p.id = some m ∧ m.alvo = T / P + 1) ∧
        verificarVitoria g p =
          some (if (ownershipCount g p.id : Int) ≥ T / P + 1 then 1 else 0) := by
  obtain ⟨T, rfl⟩ := Int.eq_ofNat_of_zero_le (by omega : 0 ≤ T)
  obtain ⟨P, rfl⟩ := Int.eq_ofNat_of_zero_le (by omega : 0 ≤ P)
  have hP1 : 1 ≤ P := by omega
  refine ⟨⟨_, setup_eq T P hP1⟩, ?_⟩
  intro g hg
  obtain ⟨_, hm, hlen, hids⟩ := alcancavel_inv T P hP1 g hg
  refine ⟨by simp [Game.numJogadores, hlen], ?_⟩
  intro k p hp
  have h1 := hids k
  rw [hp] at h1
  cases hq : idx? (estadoInicial T P).jogadores k with
  | none => simp [hq] at h1
  | some q =>
    simp only [hq, Option.map_some', Option.some.injEq] at h1
    obtain ⟨h0, hlt, hid, _⟩ := idx?_jogadores_estadoInicial T P k q hq
    have hpid : p.id = k := h1.trans hid
    have hrange : 0 ≤ p.id ∧ p.id < (P : Int) := by omega
    refine ⟨hpid, ⟨missaoDominar ((T : Int) / (P : Int) + 1), ?_, rfl⟩, ?_⟩
    · rw [idx?_eq_some_iff, hm]
      refine ⟨hrange.1, ?_⟩
      rw [List.getElem?_replicate, if_pos (by omega)]
    · exact verificarVitoria_eq g p P _ hm hrange

/-- C8, on the state after the conquest of territory 1 by player 0 in a game of 6
territories and 2 players: player 0 owns 4 territories, the target is 4, and
`verificarVitoria` returns 1. -/
theorem verificarVitoria_alcancavel_witness :
    (3 : Int) ≤ 6 ∧ (1 : Int) ≤ 2 ∧ Alcancavel 6 2 jogo62A ∧
    verificarVitoria jogo62A ⟨0, 4⟩ = some 1 := by
  have hreach : Alcancavel 6 2 jogo62A :=
    Alcancavel.passo jogo62 randExemplo 0 0 0 1 2
      ⟨1, jogo62A, 5, [Msg.ataque 3 3, Msg.resultadoDados 12 3, Msg.conquistado]⟩
      (Alcancavel.inicio jogo62 (by decide)) (by decide)
  have h := ((verificarVitoria_alcancavel 6 2 (by decide) (by decide)).2 jogo62A hreach).2
    0 ⟨0, 4⟩ (by decide)
  exact ⟨by decide, by decide, hreach, h.2.2.trans (by decide)⟩

/-- C9 fails as stated: after `setup 3 2` player 0 owns territories 0 and 2, the
target is `floor(3 / 2) + 1 = 2`, and `verificarVitoria` returns 1. -/
theorem vitoria_no_setup_3_2 :
    setup 3 2 = some jogo32 ∧ idx? jogo32.jogadores 0 = some ⟨0, 2⟩ ∧
    ownershipCount jogo32 0 = 2 ∧
    verificarVitoria jogo32 ⟨0, 2⟩ = some 1 := by
  refine ⟨by decide, by decide, by decide, by decide⟩

/-- C9, amended: immediately after `setup T P` with `T >= 1` and `P >= 1`,
`verificarVitoria` returns 1 for the player at index `k` when `k < T mod P` (that
player was handed `floor(T / P) + 1` territories, which already meets the target)
and 0 otherwise; so it returns 0 for every player when `P` divides `T`. -/
theorem verificarVitoria_apos_setup (T P : Int) (hT : 1 ≤ T) (hP : 1 ≤ P) :
    ∃ g, setup T P = some g ∧
      (∀ k p, idx? g.jogadores k = some p →
        verificarVitoria g p = some (if k < T % P then 1 else 0)) ∧
      (T % P = 0 → ∀ k p, idx? g.jogadores k = some p → verificarVitoria g p = some 0) := by
  obtain ⟨T, rfl⟩ := Int.eq_ofNat_of_zero_le (by omega : 0 ≤ T)
  obtain ⟨P, rfl⟩ := Int.eq_ofNat_of_zero_le (by omega : 0 ≤ P)
  have hP1 : 1 ≤ P := by omega
  have main : ∀ k p, idx? (estadoInicial T P).jogadores k = some p →
      verificarVitoria (estadoInicial T P) p =
        some (if k < (T : Int) % (P : Int) then 1 else 0) := by
    intro k p hp
    obtain ⟨h0, hlt, hid, _⟩ := idx?_jogadores_estadoInicial T P k p hp
    obtain ⟨k, rfl⟩ := Int.eq_ofNat_of_zero_le h0
    have hk : k < P := by omega
    rw [verificarVitoria_eq (estadoInicial T P) p P ((T : Int) / (P : Int) + 1) rfl
      (by omega), hid, ownershipCount_estadoInicial, count_mod_eq T P k hP1 hk]
    have e1 : ((T : Int) % (P : Int)) = ((T % P : Nat) : Int) := (Int.ofNat_emod T P).symm
    have e2 : ((T : Int) / (P : Int)) = ((T / P : Nat) : Int) := (Int.ofNat_ediv T P).symm
    by_cases hc : k < T % P
    · have hc2 : (k : Int) < (T : Int) % (P : Int) := by rw [e1]; exact_mod_cast hc
      have hge : ((T / P + 1 : Nat) : Int) ≥ (T : Int) / (P : Int) + 1 := by
        rw [e2, Nat.cast_add]; exact le_refl _
      rw [if_pos hc, if_pos hc2, if_pos hge]
    · have hc2 : ¬ (k : Int) < (T : Int) % (P : Int) := by rw [e1]; exact_mod_cast hc
      have hge : ¬ ((T / P + 0 : Nat) : Int) ≥ (T : Int) / (P : Int) + 1 := by
        rw [e2, Nat.add_zero]; omega
      rw [if_neg hc, if_neg hc2, if_neg hge]
  refine ⟨_, setup_eq T P hP1, main, ?_⟩
  intro hdiv k p hp
  have h0 := (idx?_jogadores_estadoInicial T P k p hp).1
  rw [main k p hp, hdiv, if_neg (by omega)]

/-- C9 amended, for the configuration of `main`: 2 divides 6, and after `setup 6 2`
neither player has won. -/
theorem verificarVitoria_apos_setup_witness :
    (1 : Int) ≤ 6 ∧ (1 : Int) ≤ 2 ∧ setup 6 2 = some jogo62 ∧
    verificarVitoria jogo62 ⟨0, 3⟩ = some 0 ∧ verificarVitoria jogo62 ⟨1, 3⟩ = some 0 := by
  obtain ⟨g, hg, _, hdiv⟩ := verificarVitoria_apos_setup 6 2 (by decide) (by decide)
  have hg2 : setup 6 2 = some jogo62 := by decide
  rw [hg2] at hg
  cases hg
  exact ⟨by decide, by decide, hg2, hdiv (by decide) 0 ⟨0, 3⟩ (by decide),
    hdiv (by decide) 1 ⟨1, 3⟩ (by decide)⟩

/-! ## Distribution -/

/-- C10: for `T >= 1` territories and `P >= 1` players, `distribuirTerritorios` on
the newly built game succeeds and leaves every territory `i` (`0 <= i < T`) with
`dono = i % P` and `tropas = 3`. -/
theorem distribuirTerritorios_round_robin (T P : Int) (hT : 1 ≤ T) (hP : 1 ≤ P) :
    ∃ g, jogoDistribuido T P = some g ∧ g.numTerritorios = T ∧
      ∀ i, 0 ≤ i → i < T →
        ∃ t, idx? g.territorios i = some t ∧ t.dono = i % P ∧ t.tropas = 3 := by
  obtain ⟨T, rfl⟩ := Int.eq_ofNat_of_zero_le (by omega : 0 ≤ T)
  obtain ⟨P, rfl⟩ := Int.eq_ofNat_of_zero_le (by omega : 0 ≤ P)
  refine ⟨_, jogoDistribuido_eq T P (by omega), by simp [Game.numTerritorios, estadoInicial],
    ?_⟩
  intro i h0 hlt
  obtain ⟨i, rfl⟩ := Int.eq_ofNat_of_zero_le h0
  have hi : i < T := by omega
  refine ⟨{ territorioAnel T i with dono := ((i % P : Nat) : Int), tropas := 3 }, ?_, ?_, rfl⟩
  · rw [idx?_natCast]
    simp [estadoInicial, List.getElem?_range hi]
  · simp

/-- C10, for 6 territories and 2 players: player 0 owns exactly territories 0, 2, 4
and player 1 exactly 1, 3, 5, each with 3 troops. -/
theorem distribuirTerritorios_round_robin_witness :
    (1 : Int) ≤ 6 ∧ (1 : Int) ≤ 2 ∧
    ∃ g, jogoDistribuido 6 2 = some g ∧
      ((g.territorios.filter (fun t => decide (t.dono = 0))).map Territory.id = [0, 2, 4]) ∧
      ((g.territorios.filter (fun t => decide (t.dono = 1))).map Territory.id = [1, 3, 5]) ∧
      g.territorios.map Territory.tropas = [3, 3, 3, 3, 3, 3] := by
  obtain ⟨g, hg, _, _⟩ := distribuirTerritorios_round_robin 6 2 (by decide) (by decide)
  have hg2 : jogoDistribuido 6 2 = some jogo62Distribuido := by decide
  rw [hg2] at hg
  cases hg
  exact ⟨by decide, by decide, jogo62Distribuido, hg2, by decide, by decide, by decide⟩

/-! ## The ring of territories -/

/-- The map built by `inicializarTerritoriosPadrao`, in closed form. -/
theorem inicializarTerritoriosPadrao_eq (game : Game) :
    inicializarTerritoriosPadrao game =
      some { game with
        territorios :=
          (List.range game.territorios.length).map (territorioAnel game.territorios.length) } := by
  obtain ⟨ts, h1, hlen, hpt⟩ :=
    inicializarTerritoriosAte_spec game game.territorios.length (le_refl _)
  have e : ts = (List.range game.territorios.length).map
      (territorioAnel game.territorios.length) := by
    apply List.ext_getElem?
    intro i
    rw [hpt i, List.getElem?_map]
    by_cases hi : i < game.territorios.length
    · simp [hi, List.getElem?_range hi]
    · have h5 : (List.range game.territorios.length)[i]? = none := by
        rw [List.getElem?_eq_none_iff]; simp; omega
      have h6 : game.territorios[i]? = none := by
        rw [List.getElem?_eq_none_iff]; omega
      simp [hi, h5, h6]
  unfold inicializarTerritoriosPadrao
  simp only [Game.numTerritorios, Int.toNat_ofNat]
  rw [h1, e]

/-- The neighbours of territory `i` in a ring of `n >= 1` territories, with the
mathematical remainder. -/
theorem territorioAnel_eq (n i : Nat) (hn : 1 ≤ n) :
    territorioAnel n i =
      ⟨(i : Int), -1, 0, [((i : Int) - 1 + (n : Int)) % (n : Int), ((i : Int) + 1) % (n : Int)]⟩ := by
  have h1 : Int.tmod ((i : Int) - 1 + (n : Int)) (n : Int) =
      ((i : Int) - 1 + (n : Int)) % (n : Int) := Int.tmod_eq_emod (by omega) (by omega)
  have h2 : Int.tmod ((i : Int) + 1) (n : Int) = ((i : Int) + 1) % (n : Int) :=
    Int.tmod_eq_emod (by omega) (by omega)
  unfold territorioAnel
  rw [h1, h2]

theorem anel_anterior (n a : Int) (h0 : 0 ≤ a) (hlt : a < n) :
    (a - 1 + n) % n = if a = 0 then n - 1 else a - 1 := by
  by_cases ha : a = 0
  · subst ha
    rw [if_pos rfl, show (0 : Int) - 1 + n = n - 1 by omega]
    exact Int.emod_eq_of_lt (by omega) (by omega)
  · rw [if_neg ha, Int.add_emod_self]
    exact Int.emod_eq_of_lt (by omega) (by omega)

theorem anel_seguinte (n a : Int) (h0 : 0 ≤ a) (hlt : a < n) :
    (a + 1) % n = if a + 1 = n then 0 else a + 1 := by
  by_cases ha : a + 1 = n
  · rw [if_pos ha, ha]
    exact Int.emod_self
  · rw [if_neg ha]
    exact Int.emod_eq_of_lt (by omega) (by omega)

/-- Territory `i` of the map built by `inicializarTerritoriosPadrao`. -/
theorem idx?_anel (game g : Game) (h : inicializarTerritoriosPadrao game = some g) (i : Int)
    (h0 : 0 ≤ i) (hlt : i < game.numTerritorios) :
    idx? g.territorios i =
      some ⟨i, -1, 0,
        [(i - 1 + game.numTerritorios) % game.numTerritorios, (i + 1) % game.numTerritorios]⟩ := by
  rw [inicializarTerritoriosPadrao_eq] at h
  cases h
  obtain ⟨i, rfl⟩ := Int.eq_ofNat_of_zero_le h0
  unfold Game.numTerritorios at hlt ⊢
  have hi : i < game.territorios.length := by omega
  rw [idx?_natCast]
  simp only [List.getElem?_map, List.getElem?_range hi, Option.map_some']
  rw [territorioAnel_eq _ _ (by omega)]

/-- C11: for every count `n` (in particular every `n >= 1`),
`inicializarTerritoriosPadrao` on a game of `n` territories succeeds and leaves
territory `i` (`0 <= i < n`) with id `i`, `dono` -1, `tropas` 0 and the neighbour
list `[(i - 1 + n) % n, (i + 1) % n]`; the number of territories, the players and
the missions are as before. -/
theorem inicializarTerritoriosPadrao_anel (n : Int) (game : Game)
    (hg : game.numTerritorios = n) :
    ∃ g, inicializarTerritoriosPadrao game = some g ∧
      g.numTerritorios = n ∧ g.jogadores = game.jogadores ∧ g.missoes = game.missoes ∧
      ∀ i, 0 ≤ i → i < n →
        idx? g.territorios i = some ⟨i, -1, 0, [(i - 1 + n) % n, (i + 1) % n]⟩ := by
  refine ⟨_, inicializarTerritoriosPadrao_eq game, ?_, rfl, rfl, ?_⟩
  · rw [← hg]
    simp [Game.numTerritorios]
  · intro i h0 hlt
    have := idx?_anel game _ (inicializarTerritoriosPadrao_eq game) i h0 (by omega)
    rw [hg] at this
    exact this

/-- C11, for `n = 6` on the game `criarJogo 6 2` returns: territory 0 has
neighbours 5 and 1, territory 5 has neighbours 4 and 0. -/
theorem inicializarTerritoriosPadrao_anel_witness :
    criarJogo 6 2 = some jogo62Novo ∧ jogo62Novo.numTerritorios = 6 ∧
    ∃ g, inicializarTerritoriosPadrao jogo62Novo = some g ∧
      idx? g.territorios 0 = some ⟨0, -1, 0, [5, 1]⟩ ∧
      idx? g.territorios 5 = some ⟨5, -1, 0, [4, 0]⟩ := by
  obtain ⟨g, hg, _, _, _, h⟩ :=
    inicializarTerritoriosPadrao_anel 6 jogo62Novo (by decide)
  exact ⟨by decide, by decide, g, hg,
    (h 0 (by decide) (by decide)).trans (by decide),
    (h 5 (by decide) (by decide)).trans (by decide)⟩

theorem numTerritorios_anel (game g : Game)
    (h : inicializarTerritoriosPadrao game = some g) :
    g.numTerritorios = game.numTerritorios := by
  rw [inicializarTerritoriosPadrao_eq] at h
  cases h
  simp [Game.numTerritorios]

/-- C12: in a map built by `inicializarTerritoriosPadrao`, for all territory ids
`a` and `b` in range, the neighbour scan of `atacar` finds `b` among the neighbours
of `a` exactly when it finds `a` among the neighbours of `b`. -/
theorem adjacencia_simetrica (game g : Game)
    (h : inicializarTerritoriosPadrao game = some g) (a b : Int)
    (ha : 0 ≤ a ∧ a < g.numTerritorios) (hb : 0 ≤ b ∧ b < g.numTerritorios) :
    ∃ ta tb, idx? g.territorios a = some ta ∧ idx? g.territorios b = some tb ∧
      (ehVizinho ta b = true ↔ ehVizinho tb a = true) := by
  have hn := numTerritorios_anel game g h
  rw [hn] at ha hb
  refine ⟨_, _, idx?_anel game g h a ha.1 ha.2, idx?_anel game g h b hb.1 hb.2, ?_⟩
  rw [ehVizinho_iff, ehVizinho_iff]
  simp only [List.mem_cons, List.mem_singleton, List.not_mem_nil, or_false]
  rw [anel_anterior _ a ha.1 ha.2, anel_seguinte _ a ha.1 ha.2,
    anel_anterior _ b hb.1 hb.2, anel_seguinte _ b hb.1 hb.2]
  split_ifs <;> omega

/-- C12, on the ring of 6 territories: 5 is a neighbour of 0 and 0 is a neighbour
of 5, while 2 and 0 are not neighbours in either direction. -/
theorem adjacencia_simetrica_witness :
    inicializarTerritoriosPadrao jogo62Novo = some jogo62Anel ∧
    (∃ ta tb, idx? jogo62Anel.territorios 0 = some ta ∧
      idx? jogo62Anel.territorios 5 = some tb ∧
      (ehVizinho ta 5 = true ↔ ehVizinho tb 0 = true)) ∧
    ehVizinho ⟨0, -1, 0, [5, 1]⟩ 5 = true ∧ ehVizinho ⟨5, -1, 0, [4, 0]⟩ 0 = true ∧
    ehVizinho ⟨0, -1, 0, [5, 1]⟩ 2 = false ∧ ehVizinho ⟨2, -1, 0, [1, 3]⟩ 0 = false :=
  ⟨by decide,
    adjacencia_simetrica jogo62Novo jogo62Anel (by decide) 0 5 (by decide) (by decide),
    by decide, by decide, by decide, by decide⟩

theorem sucessor_anel (game g : Game) (h : inicializarTerritoriosPadrao game = some g)
    (j : Int) (h0 : 0 ≤ j) (hlt : j < game.numTerritorios) :
    sucessor g j = some ((j + 1) % game.numTerritorios) := by
  unfold sucessor
  rw [idx?_anel game g h j h0 hlt]
  rfl

theorem seguirSucessor_anel (game g : Game) (h : inicializarTerritoriosPadrao game = some g)
    (i : Int) (h0 : 0 ≤ i) (hlt : i < game.numTerritorios) (k : Nat) :
    seguirSucessor g k i = some ((i + (k : Int)) % game.numTerritorios) := by
  induction k with
  | zero =>
    simp only [seguirSucessor, Nat.cast_zero, add_zero]
    rw [Int.emod_eq_of_lt h0 hlt]
  | succ k ih =>
    have hpos : (0 : Int) < game.numTerritorios := by omega
    rw [seguirSucessor, ih]
    simp only
    rw [sucessor_anel game g h _ (Int.emod_nonneg _ (by omega)) (Int.emod_lt_of_pos _ hpos),
      Int.emod_add_emod]
    push_cast
    rw [add_assoc]

theorem emod_duas_voltas (n x : Int) (h0 : 0 ≤ x) (hlt : x < 2 * n) :
    x % n = if x < n then x else x - n := by
  by_cases hx : x < n
  · rw [if_pos hx]
    exact Int.emod_eq_of_lt h0 hx
  · rw [if_neg hx, show x = (x - n) + n by omega, Int.add_emod_self,
      show x - n + n - n = x - n by omega]
    exact Int.emod_eq_of_lt (by omega) (by omega)

/-- C13: in a map built by `inicializarTerritoriosPadrao` with `N >= 3`
territories, every territory has exactly 2 neighbours, different from each other
and from the territory itself; its successor is territory `(i + 1) % N`; following
the successor `N` times from a territory leads back to it, and following it `k`
times with `0 < k < N` does not. -/
theorem anel_bem_formado (game g : Game)
    (h : inicializarTerritoriosPadrao game = some g) (hN : 3 ≤ g.numTerritorios)
    (i : Int) (hi : 0 ≤ i ∧ i < g.numTerritorios) :
    (∃ t v0 v1, idx? g.territorios i = some t ∧ t.numVizinhos = 2 ∧
      t.vizinhos = [v0, v1] ∧ v0 ≠ v1 ∧ v0 ≠ i ∧ v1 ≠ i) ∧
    sucessor g i = some ((i + 1) % g.numTerritorios) ∧
    seguirSucessor g g.numTerritorios.toNat i = some i ∧
    ∀ k : Nat, 0 < k → (k : Int) < g.numTerritorios →
      ∃ j, seguirSucessor g k i = some j ∧ j ≠ i := by
  have hn := numTerritorios_anel game g h
  rw [hn] at hN hi ⊢
  refine ⟨⟨_, _, _, idx?_anel game g h i hi.1 hi.2, rfl, rfl, ?_, ?_, ?_⟩,
    sucessor_anel game g h i hi.1 hi.2, ?_, ?_⟩
  · rw [anel_anterior _ i hi.1 hi.2, anel_seguinte _ i hi.1 hi.2]
    split_ifs <;> omega
  · rw [anel_anterior _ i hi.1 hi.2]
    split_ifs <;> omega
  · rw [anel_seguinte _ i hi.1 hi.2]
    split_ifs <;> omega
  · rw [seguirSucessor_anel game g h i hi.1 hi.2, Int.toNat_of_nonneg (by omega),
      Int.add_emod_self, Int.emod_eq_of_lt hi.1 hi.2]
  · intro k hk hkn
    refine ⟨_, seguirSucessor_anel game g h i hi.1 hi.2 k, ?_⟩
    rw [emod_duas_voltas _ _ (by omega) (by omega)]
    split_ifs <;> omega

/-- C13, on the ring of 6 territories from territory 2: its neighbours are 1 and 3,
six steps along the successor lead back to 2, three steps lead to 5. -/
theorem anel_bem_formado_witness :
    inicializarTerritoriosPadrao jogo62Novo = some jogo62Anel ∧
    (3 : Int) ≤ jogo62Anel.numTerritorios ∧
    idx? jogo62Anel.territorios 2 = some ⟨2, -1, 0, [1, 3]⟩ ∧
    seguirSucessor jogo62Anel 6 2 = some 2 ∧
    seguirSucessor jogo62Anel 3 2 = some 5 := by
  have h := anel_bem_formado jogo62Novo jogo62Anel (by decide) (by decide) 2 (by decide)
  exact ⟨by decide, by decide, by decide, h.2.2.1, by decide⟩

/-! ## Attack on an empty territory -/

/-- C14: a validated attack on a target with 0 troops rolls no defence die, so the
defence score is 0, while the attack score is at least `tropas >= 1` (each roll is
at least 1); whatever the rolls, the call is a conquest.  The attacker id and the
previous owner of the target are taken to be indices inside `jogadores` (or the
target neutral). -/
theorem atacar_territorio_vazio (rand : Nat → Nat) (game : Game) (pos : Nat)
    (idJogador idOrigem idAlvo tropas : Int) (origem alvo : Territory)
    (hv : Valido game idJogador idOrigem idAlvo tropas)
    (ho : idx? game.territorios idOrigem = some origem)
    (ha : idx? game.territorios idAlvo = some alvo)
    (hj : 0 ≤ idJogador ∧ idJogador < game.numJogadores)
    (hd : alvo.dono = -1 ∨ (0 ≤ alvo.dono ∧ alvo.dono < game.numJogadores))
    (hvazio : alvo.tropas = 0) :
    defenseScore rand pos tropas alvo = 0 ∧
    attackScore rand pos tropas ≥ tropas ∧ tropas ≥ 1 ∧
    ∃ r, atacar rand game pos idJogador idOrigem idAlvo tropas = some r ∧
      r.ret = 1 ∧ r.pos = pos + tropas.toNat ∧
      idx? r.game.territorios idAlvo =
        some { alvo with dono := idJogador, tropas := tropas } := by
  obtain ⟨heq, h2, h3, h3b, h4, h5⟩ :=
    atacar_valido rand game pos idJogador idOrigem idAlvo tropas origem alvo hv ho ha
  have hdef : defenseScore rand pos tropas alvo = 0 := by
    simp [defenseScore, hvazio, somaRolagens]
  have hatk : attackScore rand pos tropas ≥ tropas := by
    have hb := (somaRolagens_bounds rand pos tropas.toNat).1
    rw [Int.toNat_of_nonneg (by omega)] at hb
    exact hb
  have hs : attackScore rand pos tropas > defenseScore rand pos tropas alvo := by omega
  obtain ⟨js1, js2, h1, hh2⟩ := contagem_ok game idJogador alvo hj hd
  have ha1 : idx? (game.territorios.set idOrigem.toNat
      { origem with tropas := origem.tropas - tropas }) idAlvo = some alvo := by
    rw [idx?_set_ne _ _ _ _ (idx?_lt ho).1 (Ne.symm h4), ha]
  refine ⟨hdef, hatk, by omega, ?_⟩
  rw [heq, resolverAtaque_eq rand game pos idJogador idOrigem idAlvo tropas origem alvo
    ho ha h4 h3b, if_pos hs, h1]
  simp only [hh2]
  refine ⟨_, rfl, rfl, ?_, ?_⟩
  · simp [hvazio]
  · exact idx?_set_self _ _ _ _ ha1

/-- C14, on `jogoNeutro`: player 0 attacks the empty territory 1 from territory 0
with 1 troop and the lowest possible roll, 1. -/
theorem atacar_territorio_vazio_witness :
    defenseScore randUns 0 1 ⟨1, -1, 0, [0, 2]⟩ = 0 ∧
    attackScore randUns 0 1 = 1 ∧
    atacar randUns jogoNeutro 0 0 0 1 1 =
      some ⟨1,
        { territorios := [⟨0, 0, 2, [2, 1]⟩, ⟨1, 0, 1, [0, 2]⟩, ⟨2, -1, 0, [1, 0]⟩]
          jogadores := [⟨0, 2⟩]
          missoes := [missaoDominar 4] },
        1, [Msg.ataque 3 0, Msg.resultadoDados 1 0, Msg.conquistado]⟩ := by
  obtain ⟨h1, _, _, r, hr, _, _, _⟩ :=
    atacar_territorio_vazio randUns jogoNeutro 0 0 0 1 1 ⟨0, 0, 3, [2, 1]⟩ ⟨1, -1, 0, [0, 2]⟩
      (by decide) (by decide) (by decide) (by decide) (by decide) (by decide)
  exact ⟨h1, by decide, by decide⟩

/-! ## Configurations -/

/-- C15 fails as stated: `setup 2 1` (fewer than 3 territories) succeeds and builds
a game in which both neighbour pointers of each territory point to the other one;
and with 3 territories and no player nothing is rejected before
`distribuirTerritorios`, whose first iteration evaluates `0 % 0`; `setup 3 0`
produces no state only for that reason. -/
theorem setup_aceita_2_1 :
    setup 2 1 = some jogo21 ∧
    criarJogo 3 0 = some ⟨List.replicate 3 Territory.zero, [], []⟩ ∧
    inicializarTerritoriosPadrao ⟨List.replicate 3 Territory.zero, [], []⟩ = some jogo30 ∧
    inicializarJogadores jogo30 = some jogo30 ∧ jogo30.numJogadores = 0 ∧
    distribuirPasso jogo30 0 = none ∧ setup 3 0 = none := by
  refine ⟨by decide, by decide, by decide, by decide, by decide, by decide, by decide⟩

/-- C15, amended: building the game fails (an allocation fails and the program
exits) whenever the territory count or the player count is negative; there is no
minimum of 3 territories: for every territory count `T >= 1` and player count
`P >= 1`, `setup` succeeds and builds a game with those counts, which in this model
means that no division or remainder by zero was evaluated. -/
theorem setup_configuracoes (T P : Int) :
    ((T < 0 ∨ P < 0) → criarJogo T P = none ∧ setup T P = none) ∧
    (1 ≤ T → 1 ≤ P →
      ∃ g, setup T P = some g ∧ g.numTerritorios = T ∧ g.numJogadores = P) := by
  constructor
  · intro h
    have hc : criarJogo T P = none := by simp [criarJogo, h]
    refine ⟨hc, ?_⟩
    simp [setup, jogoDistribuido, hc]
  · intro hT hP
    obtain ⟨T, rfl⟩ := Int.eq_ofNat_of_zero_le (by omega : 0 ≤ T)
    obtain ⟨P, rfl⟩ := Int.eq_ofNat_of_zero_le (by omega : 0 ≤ P)
    exact ⟨_, setup_eq T P (by omega), by simp [Game.numTerritorios, estadoInicial],
      by simp [Game.numJogadores, estadoInicial]⟩

/-- C15 amended, at 2 territories and 1 player, and at a negative player count. -/
theorem setup_configuracoes_witness :
    (∃ g, setup 2 1 = some g ∧ g.numTerritorios = 2 ∧ g.numJogadores = 1) ∧
    (criarJogo 6 (-1) = none ∧ setup 6 (-1) = none) :=
  ⟨(setup_configuracoes 2 1).2 (by decide) (by decide),
    (setup_configuracoes 6 (-1)).1 (by decide)⟩

/-! ## Invariants of a game under way -/

theorem invJogo_estadoInicial (T P : Nat) (hP : 1 ≤ P) :
    InvJogo (P : Int) (estadoInicial T P) := by
  refine ⟨by simp [Game.numJogadores, estadoInicial], ?_⟩
  intro t ht
  simp only [estadoInicial, List.mem_map, List.mem_range] at ht
  obtain ⟨i, _, rfl⟩ := ht
  have hlt : i % P < P := Nat.mod_lt _ (by omega)
  refine ⟨?_, ?_, ?_, ?_⟩
  · show (0 : Int) ≤ ((i % P : Nat) : Int)
    omega
  · show ((i % P : Nat) : Int) < (P : Int)
    omega
  · show (1 : Int) ≤ 3
    decide
  · show (3 : Int) ≤ 3
    decide

/-- What the validations say about the origin. -/
theorem valido_origem (game : Game) (idJogador idOrigem idAlvo tropas : Int)
    (origem : Territory) (hv : Valido game idJogador idOrigem idAlvo tropas)
    (ho : idx? game.territorios idOrigem = some origem) :
    origem.dono = idJogador ∧ 0 < tropas ∧ tropas < origem.tropas ∧ idOrigem ≠ idAlvo := by
  obtain ⟨_, _, _, _, og, hog, h2, h3, h3b, h4, _⟩ := (valido_iff _ _ _ _ _).1 hv
  rw [ho] at hog
  cases hog
  exact ⟨h2, h3, h3b, h4⟩

/-- A call of `atacar` keeps the invariant of a game under way. -/
theorem invJogo_atacar (P : Int) (rand : Nat → Nat) (game : Game) (pos : Nat)
    (idJogador idOrigem idAlvo tropas : Int) (r : Resultado) (hinv : InvJogo P game)
    (h : atacar rand game pos idJogador idOrigem idAlvo tropas = some r) :
    InvJogo P r.game := by
  obtain ⟨hlen, _, hjl, _⟩ := atacar_preserva rand game pos idJogador idOrigem idAlvo tropas r h
  refine ⟨by rw [← hinv.1]; simp [Game.numJogadores, hjl], ?_⟩
  rcases atacar_forma rand game pos idJogador idOrigem idAlvo tropas r h with
    hg | ⟨origem, alvo, ho, ha, hv, hcase⟩
  · rw [hg]; exact hinv.2
  · obtain ⟨h2, h3, h3b, _⟩ := valido_origem game idJogador idOrigem idAlvo tropas origem hv ho
    have hog := hinv.2 origem (mem_of_idx? ho)
    have hnovo : 0 ≤ origem.dono ∧ origem.dono < P ∧ 1 ≤ origem.tropas - tropas ∧
        origem.tropas - tropas ≤ 3 := ⟨hog.1, hog.2.1, by omega, by omega⟩
    rcases hcase with ⟨_, hg⟩ | ⟨_, js1, js2, _, _, hg⟩
    · rw [hg]
      intro t ht
      rcases List.mem_or_eq_of_mem_set ht with hm | rfl
      · exact hinv.2 t hm
      · exact hnovo
    · rw [hg]
      intro t ht
      rcases List.mem_or_eq_of_mem_set ht with hm | rfl
      · rcases List.mem_or_eq_of_mem_set hm with hm2 | rfl
        · exact hinv.2 t hm2
        · exact hnovo
      · refine ⟨?_, ?_, ?_, ?_⟩
        · show 0 ≤ idJogador
          rw [← h2]; exact hog.1
        · show idJogador < P
          rw [← h2]; exact hog.2.1
        · show 1 ≤ tropas
          omega
        · show tropas ≤ 3
          omega

/-- Every state of a game set up with `T` territories and `P >= 1` players
satisfies the invariant. -/
theorem alcancavel_invJogo (T P : Nat) (hP : 1 ≤ P) (g : Game)
    (h : Alcancavel (T : Int) (P : Int) g) : InvJogo (P : Int) g := by
  induction h with
  | inicio g hg =>
    rw [setup_eq T P hP] at hg
    cases hg
    exact invJogo_estadoInicial T P hP
  | passo g rand pos j o a t r _ hr ih =>
    exact invJogo_atacar _ rand g pos j o a t r ih hr

theorem invJogo_bemFormado (P : Int) (game : Game) (h : InvJogo P game) :
    BemFormado game := by
  intro t ht
  have := h.2 t ht
  exact Or.inr ⟨this.1, by rw [h.1]; exact this.2.1⟩

theorem invJogo_tropasOk (P : Int) (game : Game) (h : InvJogo P game) :
    TropasOk game := by
  intro t ht
  have := h.2 t ht
  exact ⟨by omega, fun hd => by omega⟩

/-- A call of `atacar` keeps the troop invariant. -/
theorem tropasOk_atacar (rand : Nat → Nat) (game : Game) (pos : Nat)
    (idJogador idOrigem idAlvo tropas : Int) (r : Resultado) (hinv : TropasOk game)
    (h : atacar rand game pos idJogador idOrigem idAlvo tropas = some r) :
    TropasOk r.game := by
  rcases atacar_forma rand game pos idJogador idOrigem idAlvo tropas r h with
    hg | ⟨origem, alvo, ho, ha, hv, hcase⟩
  · rw [hg]; exact hinv
  · obtain ⟨h2, h3, h3b, _⟩ := valido_origem game idJogador idOrigem idAlvo tropas origem hv ho
    have hog := hinv origem (mem_of_idx? ho)
    have hdono : origem.dono ≠ -1 := by
      intro hd
      have := hog.2 hd
      omega
    have hnovo : 0 ≤ origem.tropas - tropas ∧
        (origem.dono = -1 → origem.tropas - tropas = 0) :=
      ⟨by omega, fun hd => absurd hd hdono⟩
    rcases hcase with ⟨_, hg⟩ | ⟨_, js1, js2, _, _, hg⟩
    · rw [hg]
      intro t ht
      rcases List.mem_or_eq_of_mem_set ht with hm | rfl
      · exact hinv t hm
      · exact hnovo
    · rw [hg]
      intro t ht
      rcases List.mem_or_eq_of_mem_set ht with hm | rfl
      · rcases List.mem_or_eq_of_mem_set hm with hm2 | rfl
        · exact hinv t hm2
        · exact hnovo
      · exact ⟨by show 0 ≤ tropas; omega, fun hd => by
          have hd2 : idJogador = -1 := hd
          exact absurd (h2.trans hd2) hdono⟩

/-! ## Troops never negative -/

/-- C16: for `T >= 3` territories and `P >= 1` players, the map built by
`inicializarTerritoriosPadrao` on the new game, the state after `setup` and every
state reached from it by calls of `atacar` have no negative troop count and no
troops on a neutral territory (`dono = -1`); and any call of `atacar`, with any
arguments and any rolls, on a state with that property leaves a state with it. -/
theorem tropas_nao_negativas (T P : Int) (hT : 3 ≤ T) (hP : 1 ≤ P) :
    (∃ g0 g1, criarJogo T P = some g0 ∧ inicializarTerritoriosPadrao g0 = some g1 ∧
      TropasOk g1) ∧
    (∀ g, Alcancavel T P g → TropasOk g) ∧
    (∀ g rand pos idJogador idOrigem idAlvo tropas r, TropasOk g →
      atacar rand g pos idJogador idOrigem idAlvo tropas = some r → TropasOk r.game) := by
  obtain ⟨T, rfl⟩ := Int.eq_ofNat_of_zero_le (by omega : 0 ≤ T)
  obtain ⟨P, rfl⟩ := Int.eq_ofNat_of_zero_le (by omega : 0 ≤ P)
  refine ⟨?_, ?_, ?_⟩
  · have hc : criarJogo (T : Int) (P : Int) = some
        { territorios := List.replicate T Territory.zero
          jogadores := List.replicate P Player.zero
          missoes := List.replicate P Mission.zero } := by
      have : ¬ ((T : Int) < 0 ∨ (P : Int) < 0) := by omega
      simp [criarJogo, this]
    refine ⟨_, _, hc, inicializarTerritoriosPadrao_eq _, ?_⟩
    intro t ht
    simp only [List.length_replicate, List.mem_map, List.mem_range] at ht
    obtain ⟨i, _, rfl⟩ := ht
    exact ⟨le_refl _, fun _ => rfl⟩
  · intro g hg
    exact invJogo_tropasOk _ g (alcancavel_invJogo T P (by omega) g hg)
  · intro g rand pos j o a t r hinv hr
    exact tropasOk_atacar rand g pos j o a t r hinv hr

/-- C16, for 6 territories and 2 players: the new map, and the state after a
conquest. -/
theorem tropas_nao_negativas_witness :
    (3 : Int) ≤ 6 ∧ (1 : Int) ≤ 2 ∧ TropasOk jogo62Anel ∧ Alcancavel 6 2 jogo62A ∧
    TropasOk jogo62A := by
  have h := tropas_nao_negativas 6 2 (by decide) (by decide)
  have hreach : Alcancavel 6 2 jogo62A :=
    Alcancavel.passo jogo62 randExemplo 0 0 0 1 2
      ⟨1, jogo62A, 5, [Msg.ataque 3 3, Msg.resultadoDados 12 3, Msg.conquistado]⟩
      (Alcancavel.inicio jogo62 (by decide)) (by decide)
  exact ⟨by decide, by decide, by decide, hreach, h.2.1 jogo62A hreach⟩

/-! ## Player indices -/

/-- C20: for `T >= 3` territories and `P >= 1` players, in every state reached from
`setup` by calls of `atacar` there are `P` player records and the `dono` of every
territory lies in `0..P-1`; every call of `atacar` on such a state, with arbitrary
integer arguments, returns (no access outside an array); and whenever a call passes
the validations, as it must to reach the conquest branch, both `idJogador` and the
previous owner of the target are indices inside `jogadores`. -/
theorem indices_jogadores_validos (T P : Int) (hT : 3 ≤ T) (hP : 1 ≤ P) (g : Game)
    (hg : Alcancavel T P g) :
    g.numJogadores = P ∧
    (∀ t ∈ g.territorios, 0 ≤ t.dono ∧ t.dono < P) ∧
    ∀ (rand : Nat → Nat) (pos : Nat) (idJogador idOrigem idAlvo tropas : Int),
      (∃ r, atacar rand g pos idJogador idOrigem idAlvo tropas = some r) ∧
      ∀ origem alvo, Valido g idJogador idOrigem idAlvo tropas →
        idx? g.territorios idOrigem = some origem →
        idx? g.territorios idAlvo = some alvo →
        (0 ≤ idJogador ∧ idJogador < g.numJogadores) ∧
        (0 ≤ alvo.dono ∧ alvo.dono < g.numJogadores) := by
  obtain ⟨T, rfl⟩ := Int.eq_ofNat_of_zero_le (by omega : 0 ≤ T)
  obtain ⟨P, rfl⟩ := Int.eq_ofNat_of_zero_le (by omega : 0 ≤ P)
  have hinv := alcancavel_invJogo T P (by omega) g hg
  refine ⟨hinv.1, fun t ht => ⟨(hinv.2 t ht).1, (hinv.2 t ht).2.1⟩, ?_⟩
  intro rand pos j o a t
  refine ⟨atacar_isSome rand g pos j o a t (invJogo_bemFormado _ g hinv), ?_⟩
  intro origem alvo hv ho ha
  obtain ⟨h2, _, _, _⟩ := valido_origem g j o a t origem hv ho
  have hog := hinv.2 origem (mem_of_idx? ho)
  have hal := hinv.2 alvo (mem_of_idx? ha)
  rw [hinv.1]
  exact ⟨⟨by rw [← h2]; exact hog.1, by rw [← h2]; exact hog.2.1⟩, hal.1, hal.2.1⟩

/-- C20, on the state after `setup 6 2`: a call with the out-of-range player id 7
returns (a rejection), and the validated attack of player 0 on territory 1 has both
indices inside `jogadores`. -/
theorem indices_jogadores_validos_witness :
    (3 : Int) ≤ 6 ∧ (1 : Int) ≤ 2 ∧ Alcancavel 6 2 jogo62 ∧
    (∃ r, atacar randExemplo jogo62 0 7 0 1 2 = some r) ∧
    atacar randExemplo jogo62 0 7 0 1 2 = some ⟨0, jogo62, 0, [Msg.naoControla]⟩ ∧
    ((0 : Int) ≤ 0 ∧ (0 : Int) < jogo62.numJogadores) ∧
    ((0 : Int) ≤ 1 ∧ (1 : Int) < jogo62.numJogadores) := by
  have hreach : Alcancavel 6 2 jogo62 := Alcancavel.inicio jogo62 (by decide)
  have h := indices_jogadores_validos 6 2 (by decide) (by decide) jogo62 hreach
  have h2 := (h.2.2 randExemplo 0 0 0 1 2).2 ⟨0, 0, 3, [5, 1]⟩ ⟨1, 1, 3, [0, 2]⟩
    (by decide) (by decide) (by decide)
  exact ⟨by decide, by decide, hreach, (h.2.2 randExemplo 0 7 0 1 2).1, by decide, h2.1, h2.2⟩

/-! ## Initial allocation -/

/-- C18: for `T >= 1` territories and `P >= 1` players, after
`distribuirTerritorios` on the new game (counters zeroed by `inicializarJogadores`)
player `p` (`0 <= p < P`) owns exactly `floor(T / P) + 1` territories if
`p < T mod P` and `floor(T / P)` otherwise, and its `numTerritorios` is that same
number. -/
theorem alocacao_inicial (T P : Int) (hT : 1 ≤ T) (hP : 1 ≤ P) :
    ∃ g, jogoDistribuido T P = some g ∧ g.numJogadores = P ∧
      ∀ p, 0 ≤ p → p < P →
        (ownershipCount g p : Int) = T / P + (if p < T % P then 1 else 0) ∧
        ∃ q, idx? g.jogadores p = some q ∧ q.id = p ∧
          q.numTerritorios = T / P + (if p < T % P then 1 else 0) := by
  obtain ⟨T, rfl⟩ := Int.eq_ofNat_of_zero_le (by omega : 0 ≤ T)
  obtain ⟨P, rfl⟩ := Int.eq_ofNat_of_zero_le (by omega : 0 ≤ P)
  have hP1 : 1 ≤ P := by omega
  refine ⟨_, jogoDistribuido_eq T P hP1, by simp [Game.numJogadores, estadoInicial], ?_⟩
  intro p h0 hlt
  obtain ⟨p, rfl⟩ := Int.eq_ofNat_of_zero_le h0
  have hp : p < P := by omega
  have hcount : ((Nat.count (fun i => i % P = p) T : Nat) : Int) =
      (T : Int) / (P : Int) + (if (p : Int) < (T : Int) % (P : Int) then 1 else 0) := by
    rw [count_mod_eq T P p hP1 hp, ← Int.ofNat_ediv, ← Int.ofNat_emod]
    by_cases hc : p < T % P
    · have hc2 : (p : Int) < ((T % P : Nat) : Int) := by omega
      rw [if_pos hc, if_pos hc2]
      push_cast
      rfl
    · have hc2 : ¬ (p : Int) < ((T % P : Nat) : Int) := by omega
      rw [if_neg hc, if_neg hc2]
      push_cast
      rfl
  constructor
  · have e : ownershipCount { estadoInicial T P with
        missoes := List.replicate P Mission.zero } (p : Int) =
        ownershipCount (estadoInicial T P) (p : Int) := rfl
    rw [e, ownershipCount_estadoInicial, hcount]
  · refine ⟨⟨(p : Int), ((Nat.count (fun i => i % P = p) T : Nat) : Int)⟩, ?_, rfl, hcount⟩
    rw [idx?_natCast]
    simp [estadoInicial, List.getElem?_range hp]

/-- C18, for 7 territories and 3 players: player 0 gets 3 territories (0, 3, 6),
players 1 and 2 get 2 each. -/
theorem alocacao_inicial_witness :
    (1 : Int) ≤ 7 ∧ (1 : Int) ≤ 3 ∧
    ∃ g, jogoDistribuido 7 3 = some g ∧
      g.jogadores = [⟨0, 3⟩, ⟨1, 2⟩, ⟨2, 2⟩] ∧
      ownershipCount g 0 = 3 ∧ ownershipCount g 1 = 2 ∧ ownershipCount g 2 = 2 := by
  obtain ⟨g, hg, _, _⟩ := alocacao_inicial 7 3 (by decide) (by decide)
  have hg2 : jogoDistribuido 7 3 = some
      { territorios :=
          [ ⟨0, 0, 3, [6, 1]⟩, ⟨1, 1, 3, [0, 2]⟩, ⟨2, 2, 3, [1, 3]⟩, ⟨3, 0, 3, [2, 4]⟩,
            ⟨4, 1, 3, [3, 5]⟩, ⟨5, 2, 3, [4, 6]⟩, ⟨6, 0, 3, [5, 0]⟩ ]
        jogadores := [⟨0, 3⟩, ⟨1, 2⟩, ⟨2, 2⟩]
        missoes := [Mission.zero, Mission.zero, Mission.zero] } := by decide
  rw [hg2] at hg
  cases hg
  exact ⟨by decide, by decide, _, hg2, rfl, by decide, by decide, by decide⟩

/-! ## Total of the troops -/

theorem soma_set (l : List Territory) (k : Nat) (x y : Territory) (h : l[k]? = some x) :
    ((l.set k y).map Territory.tropas).sum =
      (l.map Territory.tropas).sum - x.tropas + y.tropas := by
  induction l generalizing k with
  | nil => simp at h
  | cons t ts ih =>
    cases k with
    | zero =>
      simp only [List.getElem?_cons_zero, Option.some.injEq] at h
      subst h
      simp only [List.set_cons_zero, List.map_cons, List.sum_cons]
      omega
    | succ k =>
      simp only [List.getElem?_cons_succ] at h
      simp only [List.set_cons_succ, List.map_cons, List.sum_cons, ih k h]
      omega

theorem soma_ge_length (l : List Territory) (h : ∀ t ∈ l, 1 ≤ t.tropas) :
    (l.length : Int) ≤ (l.map Territory.tropas).sum := by
  induction l with
  | nil => simp
  | cons t ts ih =>
    have h1 := h t (List.mem_cons_self _ _)
    have h2 := ih (fun u hu => h u (List.mem_cons_of_mem _ hu))
    simp only [List.length_cons, List.map_cons, List.sum_cons]
    push_cast
    omega

theorem soma_todas_3 (l : List Territory) (h : ∀ t ∈ l, t.tropas = 3) :
    (l.map Territory.tropas).sum = 3 * (l.length : Int) := by
  induction l with
  | nil => simp
  | cons t ts ih =>
    have h1 := h t (List.mem_cons_self _ _)
    have h2 := ih (fun u hu => h u (List.mem_cons_of_mem _ hu))
    simp only [List.length_cons, List.map_cons, List.sum_cons]
    push_cast
    omega

theorem somaTropas_estadoInicial (T P : Nat) :
    somaTropas (estadoInicial T P) = 3 * (T : Int) := by
  unfold somaTropas
  rw [soma_todas_3]
  · simp [estadoInicial]
  · intro t ht
    simp only [estadoInicial, List.mem_map, List.mem_range] at ht
    obtain ⟨i, _, rfl⟩ := ht
    rfl

/-- The state left by a validated attack, with the outcome of the dice. -/
theorem atacar_valido_forma (rand : Nat → Nat) (game : Game) (pos : Nat)
    (idJogador idOrigem idAlvo tropas : Int) (origem alvo : Territory) (r : Resultado)
    (hv : Valido game idJogador idOrigem idAlvo tropas)
    (ho : idx? game.territorios idOrigem = some origem)
    (ha : idx? game.territorios idAlvo = some alvo)
    (h : atacar rand game pos idJogador idOrigem idAlvo tropas = some r) :
    (r.ret = 0 ∧ r.game.territorios = game.territorios.set idOrigem.toNat
        { origem with tropas := origem.tropas - tropas } ∧
      r.game.jogadores = game.jogadores) ∨
    (r.ret = 1 ∧ r.game.territorios =
        (game.territorios.set idOrigem.toNat
          { origem with tropas := origem.tropas - tropas }).set idAlvo.toNat
          { alvo with dono := idJogador, tropas := tropas } ∧
      ∃ js1, (if alvo.dono ≠ -1 ∧ alvo.dono ≠ idJogador then
            modIdx? game.jogadores alvo.dono
              (fun p => { p with numTerritorios := p.numTerritorios - 1 })
          else some game.jogadores) = some js1 ∧
        modIdx? js1 idJogador (fun p => { p with numTerritorios := p.numTerritorios + 1 }) =
          some r.game.jogadores) := by
  obtain ⟨heq, h2, h3, h3b, h4, h5⟩ :=
    atacar_valido rand game pos idJogador idOrigem idAlvo tropas origem alvo hv ho ha
  rw [heq, resolverAtaque_eq rand game pos idJogador idOrigem idAlvo tropas origem alvo
    ho ha h4 h3b] at h
  split at h
  · right
    split at h
    · exact absurd h (by simp)
    · rename_i js1 hjs1
      split at h
      · exact absurd h (by simp)
      · rename_i js2 hjs2
        cases h
        exact ⟨rfl, rfl, js1, hjs1, hjs2⟩
  · left
    cases h
    exact ⟨rfl, rfl, rfl⟩

/-- A validated attack lowers the total of the troops: by the troops the target had
on a conquest, by the committed troops on a failure. -/
theorem somaTropas_atacar (rand : Nat → Nat) (game : Game) (pos : Nat)
    (idJogador idOrigem idAlvo tropas : Int) (origem alvo : Territory) (r : Resultado)
    (hv : Valido game idJogador idOrigem idAlvo tropas)
    (ho : idx? game.territorios idOrigem = some origem)
    (ha : idx? game.territorios idAlvo = some alvo)
    (h : atacar rand game pos idJogador idOrigem idAlvo tropas = some r) :
    (r.ret = 0 ∧ somaTropas r.game = somaTropas game - tropas) ∨
    (r.ret = 1 ∧ somaTropas r.game = somaTropas game - alvo.tropas) := by
  obtain ⟨_, _, _, hne⟩ := valido_origem game idJogador idOrigem idAlvo tropas origem hv ho
  have ho2 := ((idx?_eq_some_iff _ _ _).1 ho)
  have ha2 := ((idx?_eq_some_iff _ _ _).1 ha)
  have hidx : idOrigem.toNat ≠ idAlvo.toNat := by omega
  rcases atacar_valido_forma rand game pos idJogador idOrigem idAlvo tropas origem alvo r
    hv ho ha h with ⟨hr, hts, _⟩ | ⟨hr, hts, _⟩
  · left
    refine ⟨hr, ?_⟩
    unfold somaTropas
    rw [hts, soma_set _ _ origem _ ho2.2]
    show _ - origem.tropas + (origem.tropas - tropas) = _
    omega
  · right
    refine ⟨hr, ?_⟩
    have ha3 : (game.territorios.set idOrigem.toNat
        { origem with tropas := origem.tropas - tropas })[idAlvo.toNat]? = some alvo := by
      rw [List.getElem?_set_ne hidx]
      exact ha2.2
    unfold somaTropas
    rw [hts, soma_set _ _ alvo _ ha3, soma_set _ _ origem _ ho2.2]
    show _ - origem.tropas + (origem.tropas - tropas) - alvo.tropas + tropas = _
    omega

theorem alcancavelApos_alcancavel (T P : Int) (n : Nat) (g : Game)
    (h : AlcancavelApos T P n g) : Alcancavel T P g := by
  induction h with
  | inicio g hg => exact Alcancavel.inicio g hg
  | rejeitado n g rand pos j o a t r _ _ hr ih =>
    exact Alcancavel.passo g rand pos j o a t r ih hr
  | validado n g rand pos j o a t r _ _ hr ih =>
    exact Alcancavel.passo g rand pos j o a t r ih hr

/-- A call that fails a validation leaves the game as it was. -/
theorem atacar_invalido_game (rand : Nat → Nat) (game : Game) (pos : Nat)
    (idJogador idOrigem idAlvo tropas : Int) (r : Resultado)
    (hv : ¬ Valido game idJogador idOrigem idAlvo tropas)
    (h : atacar rand game pos idJogador idOrigem idAlvo tropas = some r) :
    r.game = game := by
  cases hp : primeiraFalha game idJogador idOrigem idAlvo tropas with
  | none => exact absurd ((primeiraFalha_eq_none_iff _ _ _ _ _).1 hp) hv
  | some e =>
    rw [(atacar_primeiraFalha rand game pos idJogador idOrigem idAlvo tropas).1 e hp] at h
    cases h
    rfl

/-- C19: for `T >= 3` territories and `P >= 1` players, in every state reached from
`setup` by calls of `atacar` every territory holds between 1 and 3 troops; every
call that passes the validations returns and strictly lowers the sum of the troops
over all territories, by the troops the target had on a conquest and by the
committed troops on a failure; hence after `n` validated attacks the sum is at most
`3 * T - n`, it is never below `T`, and `n <= 3 * T - T`. -/
theorem tropas_decrescem (T P : Int) (hT : 3 ≤ T) (hP : 1 ≤ P) :
    (∀ g, Alcancavel T P g → ∀ t ∈ g.territorios, 1 ≤ t.tropas ∧ t.tropas ≤ 3) ∧
    (∀ g, Alcancavel T P g →
      ∀ (rand : Nat → Nat) (pos : Nat) (idJogador idOrigem idAlvo tropas : Int)
        (origem alvo : Territory),
        Valido g idJogador idOrigem idAlvo tropas →
        idx? g.territorios idOrigem = some origem →
        idx? g.territorios idAlvo = some alvo →
        ∃ r, atacar rand g pos idJogador idOrigem idAlvo tropas = some r ∧
          somaTropas r.game < somaTropas g ∧
          ((r.ret = 1 ∧ somaTropas r.game = somaTropas g - alvo.tropas) ∨
            (r.ret = 0 ∧ somaTropas r.game = somaTropas g - tropas))) ∧
    (∀ n g, AlcancavelApos T P n g →
      (n : Int) + somaTropas g ≤ 3 * T ∧ T ≤ somaTropas g ∧ (n : Int) ≤ 3 * T - T) := by
  obtain ⟨T, rfl⟩ := Int.eq_ofNat_of_zero_le (by omega : 0 ≤ T)
  obtain ⟨P, rfl⟩ := Int.eq_ofNat_of_zero_le (by omega : 0 ≤ P)
  have hP1 : 1 ≤ P := by omega
  have hfaixa : ∀ g, Alcancavel (T : Int) (P : Int) g →
      ∀ t ∈ g.territorios, 1 ≤ t.tropas ∧ t.tropas ≤ 3 := by
    intro g hg t ht
    have := (alcancavel_invJogo T P hP1 g hg).2 t ht
    exact ⟨this.2.2.1, this.2.2.2⟩
  have hpasso : ∀ g, Alcancavel (T : Int) (P : Int) g →
      ∀ (rand : Nat → Nat) (pos : Nat) (idJogador idOrigem idAlvo tropas : Int)
        (origem alvo : Territory),
        Valido g idJogador idOrigem idAlvo tropas →
        idx? g.territorios idOrigem = some origem →
        idx? g.territorios idAlvo = some alvo →
        ∃ r, atacar rand g pos idJogador idOrigem idAlvo tropas = some r ∧
          somaTropas r.game < somaTropas g ∧
          ((r.ret = 1 ∧ somaTropas r.game = somaTropas g - alvo.tropas) ∨
            (r.ret = 0 ∧ somaTropas r.game = somaTropas g - tropas)) := by
    intro g hg rand pos j o a t origem alvo hv ho ha
    have hinv := alcancavel_invJogo T P hP1 g hg
    obtain ⟨r, hr⟩ := atacar_isSome rand g pos j o a t (invJogo_bemFormado _ g hinv)
    obtain ⟨_, ht0, _, _⟩ := valido_origem g j o a t origem hv ho
    have hal := (hinv.2 alvo (mem_of_idx? ha)).2.2.1
    refine ⟨r, hr, ?_⟩
    rcases somaTropas_atacar rand g pos j o a t origem alvo r hv ho ha hr with
      ⟨h0, hs⟩ | ⟨h1, hs⟩
    · exact ⟨by omega, Or.inr ⟨h0, hs⟩⟩
    · exact ⟨by omega, Or.inl ⟨h1, hs⟩⟩
  have hpiso : ∀ g, Alcancavel (T : Int) (P : Int) g → (T : Int) ≤ somaTropas g := by
    intro g hg
    have hlen := (alcancavel_inv T P hP1 g hg).1
    have := soma_ge_length g.territorios (fun t ht => (hfaixa g hg t ht).1)
    rw [hlen] at this
    exact this
  refine ⟨hfaixa, hpasso, ?_⟩
  intro n g hn
  have hsoma : (n : Int) + somaTropas g ≤ 3 * (T : Int) := by
    induction hn with
    | inicio g hg =>
      rw [setup_eq T P hP1] at hg
      cases hg
      rw [somaTropas_estadoInicial]
      simp
    | rejeitado n g rand pos j o a t r _ hv hr ih =>
      rw [atacar_invalido_game rand g pos j o a t r hv hr]
      exact ih
    | validado n g rand pos j o a t r hprev hv hr ih =>
      have hg := alcancavelApos_alcancavel _ _ n g hprev
      obtain ⟨_, _, _, _, origem, ho, _⟩ := (valido_iff _ _ _ _ _).1 hv
      obtain ⟨alvo, ha⟩ := idx?_isSome_of_lt g.territorios a (by assumption) (by assumption)
      obtain ⟨r2, hr2, hlt, _⟩ := hpasso g hg rand pos j o a t origem alvo hv ho ha
      rw [hr] at hr2
      cases hr2
      push_cast
      omega
  have hp := hpiso g (alcancavelApos_alcancavel _ _ n g hn)
  exact ⟨hsoma, hp, by omega⟩

/-- C19, for 6 territories and 2 players: after the conquest of territory 1 by
player 0 (one validated attack) the troops sum to 15, three less than the 18 of the
start, three being the troops territory 1 had. -/
theorem tropas_decrescem_witness :
    (3 : Int) ≤ 6 ∧ (1 : Int) ≤ 2 ∧ AlcancavelApos 6 2 1 jogo62A ∧
    somaTropas jogo62 = 18 ∧ somaTropas jogo62A = 15 ∧
    ((1 : Nat) : Int) + somaTropas jogo62A ≤ 3 * 6 := by
  have hreach : AlcancavelApos 6 2 1 jogo62A :=
    AlcancavelApos.validado 0 jogo62 randExemplo 0 0 0 1 2
      ⟨1, jogo62A, 5, [Msg.ataque 3 3, Msg.resultadoDados 12 3, Msg.conquistado]⟩
      (AlcancavelApos.inicio jogo62 (by decide)) (by decide) (by decide)
  have h := (tropas_decrescem 6 2 (by decide) (by decide)).2.2 1 jogo62A hreach
  exact ⟨by decide, by decide, hreach, by decide, by decide, h.1⟩

/-! ## Target of a validated attack -/

/-- C17 fails as stated: in the state after `setup 3 2`, the call
`atacar(game, 0, 0, 2, 2)` passes all five validations although its target,
territory 2, is owned by the attacker, player 0. -/
theorem ataque_validado_a_territorio_proprio :
    setup 3 2 = some jogo32 ∧ Alcancavel 3 2 jogo32 ∧ Valido jogo32 0 0 2 2 ∧
    (idx? jogo32.territorios 2).map Territory.dono = some 0 :=
  ⟨by decide, Alcancavel.inicio jogo32 (by decide), by decide, by decide⟩

/-- C17, amended: for `T >= 3` territories and `P >= 1` players, in every state
reached from `setup` by calls of `atacar`, a call that passes the validations has an
origin owned by `idJogador`, a target other than the origin, and a target owned by
one of the players (never neutral), who may be `idJogador`; when the target is
owned by another player and the attack score is the greater, the call is a genuine
change of owner: the target passes to `idJogador`, the counter of the previous owner
goes down by one and the counter of `idJogador` goes up by one. -/
theorem ataque_validado_alvo (T P : Int) (hT : 3 ≤ T) (hP : 1 ≤ P) (g : Game)
    (hg : Alcancavel T P g) (rand : Nat → Nat) (pos : Nat)
    (idJogador idOrigem idAlvo tropas : Int) (origem alvo : Territory)
    (hv : Valido g idJogador idOrigem idAlvo tropas)
    (ho : idx? g.territorios idOrigem = some origem)
    (ha : idx? g.territorios idAlvo = some alvo) :
    idOrigem ≠ idAlvo ∧ origem.dono = idJogador ∧ 0 ≤ alvo.dono ∧ alvo.dono < P ∧
    (alvo.dono ≠ idJogador →
      attackScore rand pos tropas > defenseScore rand pos tropas alvo →
      ∃ r pj pd, atacar rand g pos idJogador idOrigem idAlvo tropas = some r ∧ r.ret = 1 ∧
        idx? g.jogadores idJogador = some pj ∧ idx? g.jogadores alvo.dono = some pd ∧
        idx? r.game.territorios idAlvo =
          some { alvo with dono := idJogador, tropas := tropas } ∧
        idx? r.game.jogadores idJogador =
          some { pj with numTerritorios := pj.numTerritorios + 1 } ∧
        idx? r.game.jogadores alvo.dono =
          some { pd with numTerritorios := pd.numTerritorios - 1 }) := by
  obtain ⟨T, rfl⟩ := Int.eq_ofNat_of_zero_le (by omega : 0 ≤ T)
  obtain ⟨P, rfl⟩ := Int.eq_ofNat_of_zero_le (by omega : 0 ≤ P)
  have hinv := alcancavel_invJogo T P (by omega) g hg
  obtain ⟨heq, h2, h3, h3b, h4, h5⟩ :=
    atacar_valido rand g pos idJogador idOrigem idAlvo tropas origem alvo hv ho ha
  have hog := hinv.2 origem (mem_of_idx? ho)
  have hal := hinv.2 alvo (mem_of_idx? ha)
  refine ⟨h4, h2, hal.1, hal.2.1, ?_⟩
  intro hdif hs
  have hnj : g.numJogadores = (P : Int) := hinv.1
  unfold Game.numJogadores at hnj
  obtain ⟨pd, hpd⟩ := idx?_isSome_of_lt g.jogadores alvo.dono hal.1 (by omega)
  obtain ⟨pj, hpj⟩ := idx?_isSome_of_lt g.jogadores idJogador (by rw [← h2]; exact hog.1)
    (by rw [← h2]; omega)
  have hcond : alvo.dono ≠ -1 ∧ alvo.dono ≠ idJogador := ⟨by omega, hdif⟩
  have hpj1 : idx? (g.jogadores.set alvo.dono.toNat
      { pd with numTerritorios := pd.numTerritorios - 1 }) idJogador = some pj := by
    rw [idx?_set_ne _ _ _ _ hal.1 (Ne.symm hdif), hpj]
  have ha1 : idx? (g.territorios.set idOrigem.toNat
      { origem with tropas := origem.tropas - tropas }) idAlvo = some alvo := by
    rw [idx?_set_ne _ _ _ _ (idx?_lt ho).1 (Ne.symm h4), ha]
  rw [heq, resolverAtaque_eq rand g pos idJogador idOrigem idAlvo tropas origem alvo
    ho ha h4 h3b, if_pos hs, if_pos hcond, modIdx?_of_idx _ hpd]
  simp only [modIdx?_of_idx _ hpj1]
  refine ⟨_, pj, pd, rfl, rfl, hpj, hpd, ?_, ?_, ?_⟩
  · exact idx?_set_self _ _ _ _ ha1
  · exact idx?_set_self _ _ _ _ hpj1
  · show idx? (List.set _ _ _) alvo.dono = _
    rw [idx?_set_ne _ _ _ _ (idx?_lt hpj).1 hdif]
    exact idx?_set_self _ _ _ _ hpd

/-- C17 amended, on the state after `setup 6 2`: player 0 attacks territory 1 of
player 1 from territory 0 and wins; territory 1 passes to player 0, whose counter
goes from 3 to 4, and the counter of player 1 goes from 3 to 2. -/
theorem ataque_validado_alvo_witness :
    (3 : Int) ≤ 6 ∧ (1 : Int) ≤ 2 ∧ Alcancavel 6 2 jogo62 ∧
    ∃ r, atacar randExemplo jogo62 0 0 0 1 2 = some r ∧ r.ret = 1 ∧
      idx? r.game.territorios 1 = some ⟨1, 0, 2, [0, 2]⟩ ∧
      idx? r.game.jogadores 0 = some ⟨0, 4⟩ ∧
      idx? r.game.jogadores 1 = some ⟨1, 2⟩ := by
  have hreach : Alcancavel 6 2 jogo62 := Alcancavel.inicio jogo62 (by decide)
  obtain ⟨_, _, _, _, h⟩ :=
    ataque_validado_alvo 6 2 (by decide) (by decide) jogo62 hreach randExemplo 0 0 0 1 2
      ⟨0, 0, 3, [5, 1]⟩ ⟨1, 1, 3, [0, 2]⟩ (by decide) (by decide) (by decide)
  obtain ⟨r, pj, pd, hr, hret, hpj, hpd, ht, hj, hd⟩ := h (by decide) (by decide)
  have e1 : pj = ⟨0, 3⟩ := Option.some.inj (hpj.symm.trans (by decide))
  have e2 : pd = ⟨1, 3⟩ := Option.some.inj (hpd.symm.trans (by decide))
  subst e1 e2
  exact ⟨by decide, by decide, hreach, r, hr, hret, ht, hj, hd⟩

end War
